import Mathlib

/-!
Shallow embedding of the deckgym-core battle-engine sources
(`state.rs`, `optimized_state.rs`, `safe_state.rs`, `errors.rs`,
`actions/apply_action.rs`, `actions/safe_trainer_actions.rs`) together with
the parts of the data model (`types.rs`, `deck.rs`, `hooks.rs`,
`card_ids.rs`, `tool_ids.rs`, helpers in `apply_action_helpers.rs`) that are
not shipped in `src/` and are therefore modelled from the specification.

Machine integers: `u8` arithmetic is embedded as `Nat` with `% 256` at the
points where the Rust code adds; `u32`/`usize` subtractions that would panic
on underflow in Rust are embedded as `Option`-valued (`none` = panic), and
saturating operations use `Nat` truncated subtraction, matching the tests in
`types_test.rs`.  Rust functions that `panic!`/`expect` are embedded as
`Option`/`Except`-valued functions returning `none`/`error` on the panic
path.  Randomness: `rand`-style RNGs are embedded as streams of pre-drawn
naturals (`Rng`); `rand::thread_rng()` (ambient OS randomness) is passed as
an explicit separate `Rng` argument so that its use is visible.
-/

namespace DeckGym

/-- Stream of pre-drawn random values: the shallow embedding of a `rand` RNG
(both the per-match `StdRng` and the ambient `rand::thread_rng()`). -/
structure Rng where
  seq : List Nat
deriving DecidableEq, Repr

/-- Embeds `rng.gen_range(0..n)`: consumes one stream element, reduced mod `n`. -/
def Rng.next (r : Rng) (n : Nat) : Nat × Rng :=
  match r.seq with
  | [] => (0, r)
  | x :: rest => (x % n, ⟨rest⟩)

/-- Embeds `Vec::swap_remove(i)`: removes index `i` by moving the last
element into its place (the order of the remaining elements is not
preserved unless `i` is the last index). -/
def swapRemove {α : Type} (l : List α) (i : Nat) : List α :=
  match l.getLast? with
  | none => l
  | some lastv => (l.set i lastv).dropLast

/-- Embeds `<[T]>::swap(i, j)`; Rust panics when an index is out of bounds,
embedded as `none`. -/
def listSwap {α : Type} (l : List α) (i j : Nat) : Option (List α) :=
  match l.get? i, l.get? j with
  | some a, some b => some ((l.set i b).set j a)
  | _, _ => l.get? i >>= fun _ => none

/-- Total version of `listSwap` used where indices are in range by
construction (the Fisher-Yates loop). -/
def swapTotal {α : Type} (l : List α) (i j : Nat) : List α :=
  (listSwap l i j).getD l

/-- Embeds `SliceRandom::choose`: `none` on the empty slice, otherwise the
element at `rng.gen_range(0..len)`. -/
def chooseList {α : Type} (l : List α) (r : Rng) : Option (α × Rng) :=
  if l.isEmpty then none
  else
    let p := r.next l.length
    match l.get? p.1 with
    | some a => some (a, p.2)
    | none => none

/-- Fisher-Yates loop: for `i` from `n` down to `1`, draw `j ∈ [0, i]` and
swap positions `i` and `j` (the algorithm of `SliceRandom::shuffle`). -/
def fisherYatesAux {α : Type} : List α → Rng → Nat → List α × Rng
  | l, r, 0 => (l, r)
  | l, r, Nat.succ i =>
    let p := r.next (i + 2)
    fisherYatesAux (swapTotal l (i + 1) p.1) p.2 i

/-- Shuffles a list by Fisher-Yates driven by the supplied RNG. -/
def shuffleList {α : Type} (l : List α) (r : Rng) : List α × Rng :=
  if l.length ≤ 1 then (l, r) else fisherYatesAux l r (l.length - 1)

/-- Embeds `Iterator::position`: index of the first element satisfying the
predicate. -/
def position {α : Type} (p : α → Bool) : List α → Option Nat
  | [] => none
  | x :: xs => if p x then some 0 else (position p xs).map (· + 1)

/-- Embeds `u8` addition (wrapping representation of the `u8` counters). -/
def u8add (a b : Nat) : Nat := (a + b) % 256

/-- Player-indexed pair, the embedding of the `[T; 2]` arrays of `State`.
Indexing follows the Rust usage sites, where the index is always `0` or `1`
(the safe layer rejects `player >= 2` before indexing). -/
structure Pair2 (α : Type) where
  fst : α
  snd : α
deriving DecidableEq, Repr

/-- Reads component `i` (0 ↦ first, otherwise second). -/
def Pair2.get {α : Type} (x : Pair2 α) (i : Nat) : α :=
  if i = 0 then x.fst else x.snd

/-- Writes component `i`. -/
def Pair2.set {α : Type} (x : Pair2 α) (i : Nat) (a : α) : Pair2 α :=
  if i = 0 then ⟨a, x.snd⟩ else ⟨x.fst, a⟩

/-- Applies `f` to component `i`. -/
def Pair2.modify {α : Type} (x : Pair2 α) (i : Nat) (f : α → α) : Pair2 α :=
  x.set i (f (x.get i))

/-- Energy types (`types.rs`, pinned by `types_test.rs`).
Modelled from the spec: elemental type of the data model section. -/
inductive EnergyType where
  | grass | fire | water | lightning | psychic
  | fighting | darkness | metal | dragon | colorless
deriving DecidableEq, Repr

/-- Debug name of an energy type, the embedding of `format!("{:?}", e)`. -/
def energyName : EnergyType → String
  | .grass => "Grass"
  | .fire => "Fire"
  | .water => "Water"
  | .lightning => "Lightning"
  | .psychic => "Psychic"
  | .fighting => "Fighting"
  | .darkness => "Darkness"
  | .metal => "Metal"
  | .dragon => "Dragon"
  | .colorless => "Colorless"

/-- Trainer subtypes (`types.rs`, pinned by `types_test.rs`). -/
inductive TrainerType where
  | item | supporter | tool
deriving DecidableEq, Repr

/-- Ability descriptor. Modelled from the spec: optional ability
(title + effect) on a Pokemon card. -/
structure Ability where
  title : String
  effect : String
deriving DecidableEq, Repr

/-- Attack descriptor. Modelled from the spec: ordered energy cost,
title, fixed damage, optional effect id. -/
structure Attack where
  energy_required : List EnergyType
  title : String
  fixed_damage : Nat
  effect : Option String
deriving DecidableEq, Repr

/-- Pokemon card descriptor (`types.rs` is absent from src; fields are
modelled from the spec data-model section and pinned by `types_test.rs`). -/
structure PokemonCard where
  id : String
  name : String
  hp : Nat
  energy_type : EnergyType
  stage : Nat
  evolves_from : Option String
  weakness : Option EnergyType
  ability : Option Ability
  attacks : List Attack
  retreat_cost : List EnergyType
  rarity : String
  booster_pack : String
deriving DecidableEq, Repr

/-- Trainer card descriptor (`types.rs` is absent from src; fields are
modelled from the spec data-model section and pinned by `types_test.rs`). -/
structure TrainerCard where
  id : String
  numeric_id : Nat
  name : String
  trainer_card_type : TrainerType
  effect : String
  rarity : String
  booster_pack : String
deriving DecidableEq, Repr

/-- Card: tagged union of Pokemon and Trainer (`types.rs`). -/
inductive Card where
  | pokemon : PokemonCard → Card
  | trainer : TrainerCard → Card
deriving DecidableEq, Repr

/-- Identity key of a card.  `types_test.rs` pins that Rust `PartialEq` on
cards compares by the `id` field only (same id with different name compares
equal; different variants never compare equal), so card equality in the
engine is equality of this key. -/
def Card.key : Card → String
  | .pokemon p => "P:" ++ p.id
  | .trainer t => "T:" ++ t.id

/-- Embeds the Rust `==` on `Card` (by id, variant-discriminating). -/
def cardEq (a b : Card) : Bool := a.key == b.key

/-- Embeds `Card::is_basic` (pinned by `types_test.rs`): a stage-0 Pokemon. -/
def Card.is_basic : Card → Bool
  | .pokemon p => p.stage == 0
  | .trainer _ => false

/-- Embeds `Card::is_ex` (pinned by `types_test.rs`): the name ends in
" ex". Modelled from the spec: an Ex Pokemon awards 2 KO points. -/
def Card.is_ex : Card → Bool
  | .pokemon p => p.name.endsWith " ex"
  | .trainer _ => false

/-- Embeds the `is_psychic_type` helper of `safe_trainer_actions.rs`. -/
def Card.is_psychic_type : Card → Bool
  | .pokemon p => p.energy_type == EnergyType.psychic
  | .trainer _ => false

/-- Tool identifiers (`tool_ids.rs` is absent from src; the two ids used by
the sources are modelled). -/
inductive ToolId where
  | PA010RockyHelmet
  | A2147GiantCape
deriving DecidableEq, Repr

/-- Card identifiers dispatched on by `safe_trainer_actions.rs`
(`card_ids.rs` is absent from src; the variants named by the sources are
modelled, per the spec a closed enumeration with stable numeric ids). -/
inductive CardId where
  | PA001Potion | PA002XSpeed | PA005PokeBall | PA006RedCard
  | PA007ProfessorsResearch
  | A1219Erika | A1266Erika | A1222Koga | A1269Koga
  | A1223Giovanni | A1270Giovanni | A1225Sabrina | A1272Sabrina
  | A1a068Leaf | A1a082Leaf | A2150Cyrus | A2190Cyrus
  | A2147GiantCape | A1220Misty | A1267Misty | A1a065MythicalSlab
deriving DecidableEq, Repr

/-- Modelled from the spec: `CardId::from_numeric_id` maps each stable
numeric id to its `CardId`; the concrete numbers are catalog data
(`card_ids.rs` absent from src), so representative distinct values are
used here. -/
def CardId.fromNumericId : Nat → Option CardId
  | 1 => some .PA001Potion
  | 2 => some .PA002XSpeed
  | 5 => some .PA005PokeBall
  | 6 => some .PA006RedCard
  | 7 => some .PA007ProfessorsResearch
  | 219 => some .A1219Erika
  | 266 => some .A1266Erika
  | 222 => some .A1222Koga
  | 269 => some .A1269Koga
  | 223 => some .A1223Giovanni
  | 270 => some .A1270Giovanni
  | 225 => some .A1225Sabrina
  | 272 => some .A1272Sabrina
  | 368 => some .A1a068Leaf
  | 382 => some .A1a082Leaf
  | 550 => some .A2150Cyrus
  | 590 => some .A2190Cyrus
  | 547 => some .A2147GiantCape
  | 220 => some .A1220Misty
  | 267 => some .A1267Misty
  | 365 => some .A1a065MythicalSlab
  | _ => none

/-- Modelled from the spec: `ToolId::from_trainer_card` (absent
`tool_ids.rs`), keyed on the numeric id of the trainer card. -/
def ToolId.fromTrainerCard (tc : TrainerCard) : Option ToolId :=
  if tc.numeric_id = 547 then some .A2147GiantCape else none

/-- A Pokemon on the field (`types.rs` absent from src; fields modelled
from the spec data model and pinned by `types_test.rs` and the uses in
`apply_action.rs`). -/
structure PlayedCard where
  card : Card
  remaining_hp : Nat
  total_hp : Nat
  attached_energy : List EnergyType
  attached_tool : Option ToolId
  played_this_turn : Bool
  ability_used : Bool
  poisoned : Bool
  paralyzed : Bool
  asleep : Bool
  cards_behind : List Card
deriving DecidableEq, Repr

/-- Embeds `PlayedCard::heal` (`types.rs` absent from src). Modelled from
the spec: add to `remaining_hp`, capped at `total_hp`; pinned by
`test_played_card_heal` in `types_test.rs`. -/
def PlayedCard.heal (pc : PlayedCard) (amount : Nat) : PlayedCard :=
  { pc with remaining_hp := min (pc.remaining_hp + amount) pc.total_hp }

/-- Embeds `PlayedCard::apply_damage` (pinned by `types_test.rs`):
saturating subtraction on `remaining_hp`. -/
def PlayedCard.apply_damage (pc : PlayedCard) (amount : Nat) : PlayedCard :=
  { pc with remaining_hp := pc.remaining_hp - amount }

/-- Embeds `PlayedCard::get_energy_type`: the elemental type of the
underlying Pokemon card. -/
def PlayedCard.get_energy_type (pc : PlayedCard) : Option EnergyType :=
  match pc.card with
  | .pokemon p => some p.energy_type
  | .trainer _ => none

/-- Embeds `PlayedCard::get_name`. -/
def PlayedCard.get_name (pc : PlayedCard) : String :=
  match pc.card with
  | .pokemon p => p.name
  | .trainer t => t.name

/-- Embeds `PlayedCard::is_damaged` (pinned by `types_test.rs`). -/
def PlayedCard.is_damaged (pc : PlayedCard) : Bool :=
  pc.remaining_hp < pc.total_hp

/-- Embeds `PlayedCard::is_poisoned`. -/
def PlayedCard.is_poisoned (pc : PlayedCard) : Bool := pc.poisoned

/-- Embeds `PlayedCard::has_tool_attached` (pinned by `types_test.rs`). -/
def PlayedCard.has_tool_attached (pc : PlayedCard) : Bool :=
  pc.attached_tool.isSome

/-- Modelled from the spec: `to_playable_card` (`hooks.rs` absent from src)
builds a fresh `PlayedCard` from a Pokemon card with full HP, no
attachments, cleared status, and the given `played_this_turn` flag; Rust
panics on a trainer card (embedded as `none`). -/
def toPlayableCard (c : Card) (played : Bool) : Option PlayedCard :=
  match c with
  | .pokemon p =>
    some { card := c, remaining_hp := p.hp, total_hp := p.hp,
           attached_energy := [], attached_tool := none,
           played_this_turn := played, ability_used := false,
           poisoned := false, paralyzed := false, asleep := false,
           cards_behind := [] }
  | .trainer _ => none

/-- Deck (`deck.rs` absent from src). Modelled from the spec: ordered card
list (top is index 0) plus the declared energy pool. -/
structure Deck where
  cards : List Card
  energy_types : List EnergyType
deriving DecidableEq, Repr

/-- Modelled from the spec: `Deck::draw` pops the top (index 0) of the
deck, `none` when empty. -/
def Deck.draw (d : Deck) : Option (Card × Deck) :=
  match d.cards with
  | [] => none
  | c :: rest => some (c, { d with cards := rest })

/-- Modelled from the spec: `Deck::shuffle` permutes the card list using
the supplied RNG (Fisher-Yates).  The Rust signature carries a flag used
at game setup whose effect (guaranteeing an opening basic) is catalog
logic absent from src; the permutation itself ignores it. -/
def Deck.shuffle (d : Deck) (_setupFlag : Bool) (r : Rng) : Deck × Rng :=
  let p := shuffleList d.cards r
  ({ d with cards := p.1 }, p.2)

/-- Game outcome (`state.rs`). -/
inductive GameOutcome where
  | win : Nat → GameOutcome
  | tie
deriving DecidableEq, Repr

/-- Simple actions (`actions` module; the enum itself is absent from src
and is modelled from the spec ActionKind table together with every variant
used by `apply_action.rs` and `safe_trainer_actions.rs`). -/
inductive SimpleAction where
  | drawCard
  | place : Card → Nat → SimpleAction
  | attach : List (Nat × EnergyType × Nat) → Bool → SimpleAction
  | attachTool : Nat → ToolId → SimpleAction
  | evolve : Card → Nat → SimpleAction
  | useAbility : Nat → SimpleAction
  | activate : Nat → SimpleAction
  | retreat : Nat → SimpleAction
  | applyDamage : List (Nat × Nat) → SimpleAction
  | heal : Nat → Nat → SimpleAction
  | attack : Nat → SimpleAction
  | play : TrainerCard → SimpleAction
  | endTurn
deriving DecidableEq, Repr

/-- An action with its actor and stack flag (spec §4.4). -/
structure Action where
  actor : Nat
  action : SimpleAction
  is_stack : Bool
deriving DecidableEq, Repr

/-- Error type (`errors.rs`); the variants carry the same context fields. -/
inductive GameError where
  | invalidCardPosition : Nat → Nat → GameError
  | cardNotInHand : String → Nat → GameError
  | noPokemonAtPosition : Nat → Nat → GameError
  | noActivePokemon : Nat → GameError
  | emptyDeck : Nat → GameError
  | invalidPlayer : Nat → GameError
  | invalidAction : String → String → GameError
  | illegalMove : String → GameError
  | invalidEvolution : String → GameError
  | invalidAttachment : String → GameError
  | cardNotFound : Nat → GameError
  | invalidCardType : String → String → GameError
  | missingEnergy : List String → List String → GameError
  | gameAlreadyOver : GameError
  | invalidGameState : String → GameError
  | noLegalMoves : Nat → GameError
  | invalidDeckFormat : String → GameError
  | deckValidationFailed : List String → GameError
  | insufficientCards : Nat → Nat → GameError
  | internalError : String → String → GameError
deriving DecidableEq, Repr

/-- Turn-effects map, the embedding of `BTreeMap<u8, Vec<Card>>`: an
association list kept sorted by the turn key. -/
def TurnEffects : Type := List (Nat × List Card)

instance : DecidableEq TurnEffects := by
  unfold TurnEffects
  infer_instance

/-- Embeds `BTreeMap::get(&k).cloned()`. -/
def teGet (m : TurnEffects) (k : Nat) : Option (List Card) :=
  match m with
  | [] => none
  | (k', v) :: rest => if k = k' then some v else teGet rest k

/-- Embeds `map.entry(k).or_default().push(c)` on the sorted
association list. -/
def tePush (m : TurnEffects) (k : Nat) (c : Card) : TurnEffects :=
  match m with
  | [] => [(k, [c])]
  | (k', v) :: rest =>
    if k < k' then (k, [c]) :: (k', v) :: rest
    else if k = k' then (k', v ++ [c]) :: rest
    else (k', v) :: tePush rest k c

/-- The match state (`state.rs`). -/
structure State where
  winner : Option GameOutcome
  points : Pair2 Nat
  turn_count : Nat
  current_player : Nat
  move_generation_stack : List (Nat × List SimpleAction)
  current_energy : Option EnergyType
  hands : Pair2 (List Card)
  decks : Pair2 Deck
  discard_piles : Pair2 (List Card)
  in_play_pokemon : Pair2 (List (Option PlayedCard))
  has_played_support : Bool
  has_retreated : Bool
  turn_effects : TurnEffects
deriving DecidableEq

/-- Embeds `State::new` (`state.rs`). -/
def State.new (deck_a deck_b : Deck) : State :=
  { winner := none
    points := ⟨0, 0⟩
    turn_count := 0
    current_player := 0
    move_generation_stack := []
    current_energy := none
    hands := ⟨[], []⟩
    decks := ⟨deck_a, deck_b⟩
    discard_piles := ⟨[], []⟩
    in_play_pokemon := ⟨[none, none, none, none], [none, none, none, none]⟩
    has_played_support := false
    has_retreated := false
    turn_effects := [] }

/-- Embeds `State::remove_card_from_hand` (`state.rs`): finds the first
card equal (Rust `==`, id-keyed) to the argument and `swap_remove`s it;
Rust panics when absent, embedded as `none`. -/
def State.remove_card_from_hand (s : State) (current_player : Nat) (card : Card) :
    Option State :=
  match position (fun x => cardEq x card) (s.hands.get current_player) with
  | none => none
  | some i =>
    some { s with hands := s.hands.modify current_player (fun h => swapRemove h i) }

/-- Embeds `State::discard_card_from_hand` (`state.rs`). -/
def State.discard_card_from_hand (s : State) (current_player : Nat) (card : Card) :
    Option State :=
  (s.remove_card_from_hand current_player card).map fun s1 =>
    { s1 with discard_piles := s1.discard_piles.modify current_player (fun d => d ++ [card]) }

/-- Embeds `State::maybe_draw_card` (`state.rs`): pops the top of the deck
into the hand, a no-op on an empty deck. -/
def State.maybe_draw_card (s : State) (player : Nat) : State :=
  match (s.decks.get player).draw with
  | none => s
  | some (card, deck') =>
    { s with decks := s.decks.set player deck',
             hands := s.hands.modify player (fun h => h ++ [card]) }

/-- Embeds `State::generate_energy` (`state.rs`).  The Rust body draws
from `rand::thread_rng()` — NOT from the per-match RNG — so the ambient
thread-RNG stream is an explicit argument here; `none` embeds the
"Decks should have at least 1 energy" panic.  Note the Rust single-energy
branch falls through (no early return) and samples anyway. -/
def State.generate_energy (s : State) (threadRng : Rng) : Option (State × Rng) :=
  let es := (s.decks.get s.current_player).energy_types
  let s1 := match es with
            | [e] => { s with current_energy := some e }
            | _ => s
  match chooseList es threadRng with
  | none => none
  | some (e, r') => some ({ s1 with current_energy := some e }, r')

/-- Embeds `State::reset_turn_states` (`state.rs`). -/
def State.reset_turn_states (s : State) : State :=
  let clear := fun (row : List (Option PlayedCard)) =>
    row.map (fun x => x.map (fun pc => { pc with played_this_turn := false, ability_used := false }))
  { s with in_play_pokemon := ⟨clear s.in_play_pokemon.fst, clear s.in_play_pokemon.snd⟩,
           has_played_support := false,
           has_retreated := false }

/-- Embeds `State::add_turn_effect` (`state.rs`): records the card for
turns `turn_count .. turn_count + duration`. -/
def State.add_turn_effect (s : State) (card : Card) (duration : Nat) : State :=
  let te := (List.range (duration + 1)).foldl
    (fun m off => tePush m (u8add s.turn_count off) card) s.turn_effects
  { s with turn_effects := te }

/-- Embeds `State::get_current_turn_effects` (`state.rs`). -/
def State.get_current_turn_effects (s : State) : List Card :=
  (teGet s.turn_effects s.turn_count).getD []

/-- Embeds `State::enumerate_in_play_pokemon` (`state.rs`): the indexed
occupied slots. -/
def State.enumerate_in_play_pokemon (s : State) (player : Nat) :
    List (Nat × PlayedCard) :=
  ((s.in_play_pokemon.get player).enum).filterMap
    (fun p => p.2.map (fun pc => (p.1, pc)))

/-- Embeds `State::enumerate_bench_pokemon` (`state.rs`). -/
def State.enumerate_bench_pokemon (s : State) (player : Nat) :
    List (Nat × PlayedCard) :=
  (s.enumerate_in_play_pokemon player).filter (fun p => p.1 ≠ 0)

/-- Embeds `State::queue_draw_action` (`state.rs`). -/
def State.queue_draw_action (s : State) (actor : Nat) : State :=
  { s with move_generation_stack :=
      s.move_generation_stack ++ [(actor, [SimpleAction.drawCard])] }

/-- Embeds `State::advance_turn` (`state.rs`): flip the player, bump the
turn counter, reset turn flags, queue the draw and generate energy (the
last step consults the ambient thread RNG, see `State.generate_energy`). -/
def State.advance_turn (s : State) (threadRng : Rng) : Option (State × Rng) :=
  let s1 := { s with current_player := (s.current_player + 1) % 2,
                     turn_count := u8add s.turn_count 1 }
  let s2 := s1.reset_turn_states
  let s3 := s2.queue_draw_action s2.current_player
  s3.generate_energy threadRng

/-- Embeds `State::is_game_over` (`state.rs`). -/
def State.is_game_over (s : State) : Bool :=
  s.winner.isSome || 100 ≤ s.turn_count

/-- Embeds `State::initialize` (`state.rs`): shuffle both decks with the
supplied per-match RNG, draw five cards each in alternation, and coin-flip
the starting player from the same RNG. -/
def State.initialize (deck_a deck_b : Deck) (r : Rng) : State :=
  let s0 := State.new deck_a deck_b
  let p1 := s0.decks.fst.shuffle true r
  let p2 := s0.decks.snd.shuffle true p1.2
  let s1 := { s0 with decks := ⟨p1.1, p2.1⟩ }
  let s2 := (List.range 5).foldl
    (fun s _ => (s.maybe_draw_card 0).maybe_draw_card 1) s1
  let coin := p2.2.next 2
  { s2 with current_player := coin.1 }

/-- The optimized match state (`optimized_state.rs`).  The Rust struct
wraps the large fields in `Arc` for copy-on-write cloning; `Arc` and
`Arc::make_mut` are semantically transparent in a single-threaded
embedding, so the fields carry the same types as `State`. -/
structure OptimizedState where
  winner : Option GameOutcome
  points : Pair2 Nat
  turn_count : Nat
  current_player : Nat
  move_generation_stack : List (Nat × List SimpleAction)
  current_energy : Option EnergyType
  hands : Pair2 (List Card)
  decks : Pair2 Deck
  discard_piles : Pair2 (List Card)
  in_play_pokemon : Pair2 (List (Option PlayedCard))
  has_played_support : Bool
  has_retreated : Bool
  turn_effects : TurnEffects
deriving DecidableEq

/-- Field-for-field view of an `OptimizedState` as a `State` (the claim of
`optimized_state.rs` is that the copy-on-write wrappers change no
observable behaviour). -/
def OptimizedState.toState (s : OptimizedState) : State :=
  { winner := s.winner, points := s.points, turn_count := s.turn_count,
    current_player := s.current_player,
    move_generation_stack := s.move_generation_stack,
    current_energy := s.current_energy, hands := s.hands, decks := s.decks,
    discard_piles := s.discard_piles, in_play_pokemon := s.in_play_pokemon,
    has_played_support := s.has_played_support,
    has_retreated := s.has_retreated, turn_effects := s.turn_effects }

/-- Embeds `OptimizedState::new` (`optimized_state.rs`). -/
def OptimizedState.new (deck_a deck_b : Deck) : OptimizedState :=
  { winner := none
    points := ⟨0, 0⟩
    turn_count := 0
    current_player := 0
    move_generation_stack := []
    current_energy := none
    hands := ⟨[], []⟩
    decks := ⟨deck_a, deck_b⟩
    discard_piles := ⟨[], []⟩
    in_play_pokemon := ⟨[none, none, none, none], [none, none, none, none]⟩
    has_played_support := false
    has_retreated := false
    turn_effects := [] }

/-- Embeds `OptimizedState::remove_card_from_hand` (`optimized_state.rs`);
`hands_mut` (copy-on-write) is transparent here. -/
def OptimizedState.remove_card_from_hand (s : OptimizedState) (current_player : Nat)
    (card : Card) : Option OptimizedState :=
  match position (fun x => cardEq x card) (s.hands.get current_player) with
  | none => none
  | some i =>
    some { s with hands := s.hands.modify current_player (fun h => swapRemove h i) }

/-- Embeds `OptimizedState::discard_card_from_hand` (`optimized_state.rs`). -/
def OptimizedState.discard_card_from_hand (s : OptimizedState) (current_player : Nat)
    (card : Card) : Option OptimizedState :=
  (s.remove_card_from_hand current_player card).map fun s1 =>
    { s1 with discard_piles := s1.discard_piles.modify current_player (fun d => d ++ [card]) }

/-- Embeds `OptimizedState::maybe_draw_card` (`optimized_state.rs`): the
deck is mutated first (`decks_mut` + `draw`), then the card is pushed onto
the hand. -/
def OptimizedState.maybe_draw_card (s : OptimizedState) (player : Nat) : OptimizedState :=
  match (s.decks.get player).draw with
  | none => s
  | some (card, deck') =>
    let s1 := { s with decks := s.decks.set player deck' }
    { s1 with hands := s1.hands.modify player (fun h => h ++ [card]) }

/-- Embeds `OptimizedState::generate_energy` (`optimized_state.rs`): like
the `State` version it draws from `rand::thread_rng()`, but it returns
early in the single-energy case (consuming no ambient randomness). -/
def OptimizedState.generate_energy (s : OptimizedState) (threadRng : Rng) :
    Option (OptimizedState × Rng) :=
  let es := (s.decks.get s.current_player).energy_types
  match es with
  | [e] => some ({ s with current_energy := some e }, threadRng)
  | _ =>
    match chooseList es threadRng with
    | none => none
    | some (e, r') => some ({ s with current_energy := some e }, r')

/-- Embeds `OptimizedState::reset_turn_states` (`optimized_state.rs`). -/
def OptimizedState.reset_turn_states (s : OptimizedState) : OptimizedState :=
  let clear := fun (row : List (Option PlayedCard)) =>
    row.map (fun x => x.map (fun pc => { pc with played_this_turn := false, ability_used := false }))
  { s with in_play_pokemon := ⟨clear s.in_play_pokemon.fst, clear s.in_play_pokemon.snd⟩,
           has_played_support := false,
           has_retreated := false }

/-- Embeds `OptimizedState::add_turn_effect` (`optimized_state.rs`). -/
def OptimizedState.add_turn_effect (s : OptimizedState) (card : Card) (duration : Nat) :
    OptimizedState :=
  let te := (List.range (duration + 1)).foldl
    (fun m off => tePush m (u8add s.turn_count off) card) s.turn_effects
  { s with turn_effects := te }

/-- Embeds `OptimizedState::get_current_turn_effects` (`optimized_state.rs`). -/
def OptimizedState.get_current_turn_effects (s : OptimizedState) : List Card :=
  (teGet s.turn_effects s.turn_count).getD []

/-- Embeds `OptimizedState::queue_draw_action` (`optimized_state.rs`). -/
def OptimizedState.queue_draw_action (s : OptimizedState) (actor : Nat) : OptimizedState :=
  { s with move_generation_stack :=
      s.move_generation_stack ++ [(actor, [SimpleAction.drawCard])] }

/-- Embeds `OptimizedState::advance_turn` (`optimized_state.rs`). -/
def OptimizedState.advance_turn (s : OptimizedState) (threadRng : Rng) :
    Option (OptimizedState × Rng) :=
  let s1 := { s with current_player := (s.current_player + 1) % 2,
                     turn_count := u8add s.turn_count 1 }
  let s2 := s1.reset_turn_states
  let s3 := s2.queue_draw_action s2.current_player
  s3.generate_energy threadRng

/-- Embeds `OptimizedState::is_game_over` (`optimized_state.rs`). -/
def OptimizedState.is_game_over (s : OptimizedState) : Bool :=
  s.winner.isSome || 100 ≤ s.turn_count

/-- Embeds `OptimizedState::initialize` (`optimized_state.rs`): shuffles
the two decks in index order, draws five cards each in alternation, and
coin-flips the starting player, all from the supplied RNG. -/
def OptimizedState.initialize (deck_a deck_b : Deck) (r : Rng) : OptimizedState :=
  let s0 := OptimizedState.new deck_a deck_b
  let p1 := s0.decks.fst.shuffle true r
  let p2 := s0.decks.snd.shuffle true p1.2
  let s1 := { s0 with decks := ⟨p1.1, p2.1⟩ }
  let s2 := (List.range 5).foldl
    (fun s _ => (s.maybe_draw_card 0).maybe_draw_card 1) s1
  let coin := p2.2.next 2
  { s2 with current_player := coin.1 }

/-- Modelled from the spec: `get_retreat_cost` (`hooks.rs` absent from
src) returns the retreat cost declared on the active Pokemon card. -/
def getRetreatCost (_s : State) (pc : PlayedCard) : List EnergyType :=
  match pc.card with
  | .pokemon p => p.retreat_cost
  | .trainer _ => []

/-- Modelled from the spec: `on_attach_tool` (`hooks.rs` absent from src);
per the card text of Giant Cape the wearer gains 20 HP, other tools leave
the state unchanged. -/
def onAttachTool (s : State) (acting idx : Nat) (tool : ToolId) : State :=
  match tool with
  | .A2147GiantCape =>
    match (s.in_play_pokemon.get acting).get? idx with
    | some (some pc) =>
      { s with in_play_pokemon := (s.in_play_pokemon.modify acting
          (fun row => row.set idx (some { pc with total_hp := pc.total_hp + 20,
                                                  remaining_hp := pc.remaining_hp + 20 }))) }
    | _ => s
  | _ => s

/-- Modelled from the spec: the common pre-mutation of every non-stack
action (`apply_common_mutation` in the absent `apply_action_helpers.rs`):
for `Play` it discards the trainer card being played, and a Supporter
marks `has_played_support`; stack actions skip the prelude. -/
def applyCommonMutation (s : State) (a : Action) : Option State :=
  if a.is_stack then some s
  else
    match a.action with
    | .play tc =>
      (s.discard_card_from_hand a.actor (Card.trainer tc)).map fun s1 =>
        if tc.trainer_card_type = TrainerType.supporter then
          { s1 with has_played_support := true }
        else s1
    | _ => some s

/-- Embeds `apply_healing` (`apply_action.rs`): heal the Pokemon at the
position (panic when absent, embedded as `none`). -/
def applyHealing (acting : Nat) (s : State) (position amount : Nat) : Option State :=
  match (s.in_play_pokemon.get acting).get? position with
  | some (some pc) =>
    some { s with in_play_pokemon := (s.in_play_pokemon.modify acting
        (fun row => row.set position (some (pc.heal amount)))) }
  | _ => none

/-- First half of `apply_retreat` (`apply_action.rs`): for a paid retreat,
truncate the attached energy of the active by the retreat-cost count
(underflow panics, embedded as `none`); a free activation pays nothing. -/
def retreatPayPhase (acting : Nat) (s : State) (is_free : Bool) : Option State :=
  if is_free then some s
  else
    match (s.in_play_pokemon.get acting).get? 0 with
    | some (some active) =>
      let cost := getRetreatCost s active
      if active.attached_energy.length < cost.length then none
      else
        let active1 := { active with attached_energy :=
          (active.attached_energy.take (active.attached_energy.length - cost.length)) }
        some { s with in_play_pokemon := (s.in_play_pokemon.modify acting
            (fun row => row.set 0 (some active1))) }
    | _ => none

/-- Second half of `apply_retreat` (`apply_action.rs`): swap active and
bench slot (an out-of-range index panics, embedded as `none`), cure
status on the now-benched Pokemon and set `has_retreated`. -/
def retreatSwapPhase (acting bench_idx : Nat) (s1 : State) : Option State :=
  match listSwap (s1.in_play_pokemon.get acting) 0 bench_idx with
  | none => none
  | some row1 =>
    let row2 :=
      match row1.get? bench_idx with
      | some (some pc) =>
        row1.set bench_idx (some { pc with poisoned := false, paralyzed := false,
                                           asleep := false })
      | _ => row1
    some { s1 with in_play_pokemon := s1.in_play_pokemon.set acting row2,
                   has_retreated := true }

/-- Embeds `apply_retreat` (`apply_action.rs`): pay the retreat cost (for
a paid retreat), then swap and cure status. -/
def applyRetreat (acting : Nat) (s : State) (bench_idx : Nat) (is_free : Bool) :
    Option State :=
  (retreatPayPhase acting s is_free).bind (retreatSwapPhase acting bench_idx)

/-- Embeds `apply_evolve` (`apply_action.rs`): a fresh `PlayedCard` from
the evolution card inherits the attached energy and the damage taken
(`new_hp - damage_taken`), pushes the evolvee onto `cards_behind` and is
placed in the slot; the card is removed from the hand.  Panics (trainer
card, basic card, absent Pokemon, HP underflow) are embedded as `none`. -/
def applyEvolve (acting : Nat) (s : State) (card : Card) (position : Nat) :
    Option State :=
  (toPlayableCard card true).bind fun played =>
    match (s.in_play_pokemon.get acting).get? position with
    | some (some old) =>
      match card with
      | .trainer _ => none
      | .pokemon pc =>
        if pc.stage = 0 then none
        else if old.total_hp < old.remaining_hp then none
        else
          let damage := old.total_hp - old.remaining_hp
          if played.remaining_hp < damage then none
          else
            let newPc := { played with
                           remaining_hp := played.remaining_hp - damage
                           attached_energy := old.attached_energy
                           cards_behind := old.cards_behind ++ [old.card] }
            let s1 := { s with in_play_pokemon := (s.in_play_pokemon.modify acting
                (fun row => row.set position (some newPc))) }
            s1.remove_card_from_hand acting card
    | _ => none

/-- KO point value of a card.  Modelled from the spec: 2 for an Ex
Pokemon, otherwise 1. -/
def koPoints (c : Card) : Nat := if c.is_ex then 2 else 1

/-- Modelled from the spec: the knockout sub-routine (§4.4, absent
`apply_action_helpers.rs`): discard the KO-ed card with its
`cards_behind`, clear the slot, award points, push a replacement
sub-decision or declare the winner, and re-check the point target. -/
def handleKnockout (s : State) (attacker opponent idx : Nat) (pc : PlayedCard) : State :=
  let s1 := { s with
      discard_piles := (s.discard_piles.modify opponent
        (fun d => d ++ pc.card :: pc.cards_behind)),
      in_play_pokemon := s.in_play_pokemon.modify opponent (fun row => row.set idx none),
      points := s.points.modify attacker (fun p => p + koPoints pc.card) }
  let s2 : State :=
    if idx = 0 then
      let bench := s1.enumerate_bench_pokemon opponent
      if bench.isEmpty then { s1 with winner := some (GameOutcome.win attacker) }
      else { s1 with move_generation_stack := (s1.move_generation_stack ++
              [(opponent, bench.map (fun p => SimpleAction.activate p.1))]) }
    else s1
  if 3 ≤ Pair2.get s2.points attacker then
    { s2 with winner := some (GameOutcome.win attacker) }
  else s2

/-- Modelled from the spec: `handle_attack_damage` (absent
`apply_action_helpers.rs`): subtract each target amount from the
corresponding opposing Pokemon, invoking the knockout sub-routine at 0 HP. -/
def damageOne (actor opponent : Nat) (st : State) (t : Nat × Nat) : State :=
  match (st.in_play_pokemon.get opponent).get? t.2 with
  | some (some pc) =>
    let pc1 := pc.apply_damage t.1
    if pc1.remaining_hp = 0 then handleKnockout st actor opponent t.2 pc1
    else { st with in_play_pokemon := (st.in_play_pokemon.modify opponent
        (fun row => row.set t.2 (some pc1))) }
  | _ => st

/-- Folds `damageOne` over the targets (the loop of
`handle_attack_damage`). -/
def handleAttackDamage (s : State) (actor : Nat) (targets : List (Nat × Nat)) : State :=
  let opponent := (actor + 1) % 2
  targets.foldl (damageOne actor opponent) s

/-- Modelled from the spec: `apply_abilities_action` (absent
`apply_abilities_action.rs`): mark `ability_used` on the acting Pokemon
and dispatch by card; the abilities pinned by the src test file are
Butterfree (heal 20 to all own Pokemon) and Weezing (poison the opposing
active, panicking — `none` — when it is absent). -/
def applyAbilitiesAction (acting : Nat) (s : State) (position : Nat) : Option State :=
  match (s.in_play_pokemon.get acting).get? position with
  | some (some pc) =>
    let s1 := { s with in_play_pokemon := (s.in_play_pokemon.modify acting
        (fun row => row.set position (some { pc with ability_used := true }))) }
    if pc.get_name = "Butterfree" then
      some { s1 with in_play_pokemon := (s1.in_play_pokemon.modify acting
          (fun row => row.map (fun x => x.map (fun q => q.heal 20)))) }
    else if pc.get_name = "Weezing" then
      let opp := (acting + 1) % 2
      match (s1.in_play_pokemon.get opp).get? 0 with
      | some (some q) =>
        some { s1 with in_play_pokemon := (s1.in_play_pokemon.modify opp
            (fun row => row.set 0 (some { q with poisoned := true }))) }
      | _ => none
    else some s1
  | _ => none

/-- One energy attachment of the `Attach` arm of
`apply_deterministic_action` (`apply_action.rs`): append `amount` copies
of the energy onto the Pokemon at the index (panic when absent, embedded
as `none`). -/
def attachOne (actor : Nat) (acc : Option State) (att : Nat × EnergyType × Nat) :
    Option State :=
  acc.bind fun st =>
    match (st.in_play_pokemon.get actor).get? att.2.2 with
    | some (some pc) =>
      let pc1 := { pc with attached_energy :=
        (pc.attached_energy ++ List.replicate att.1 att.2.1) }
      some { st with in_play_pokemon := (st.in_play_pokemon.modify actor
          (fun row => row.set att.2.2 (some pc1))) }
    | _ => none

/-- The `Attach` arm of `apply_deterministic_action` (`apply_action.rs`). -/
def applyAttachList (actor : Nat) (s1 : State)
    (attachments : List (Nat × EnergyType × Nat)) (is_turn_energy : Bool) :
    Option State :=
  (attachments.foldl (attachOne actor) (some s1)).map fun st =>
    if is_turn_energy then { st with current_energy := none } else st

/-- The `AttachTool` arm of `apply_deterministic_action`
(`apply_action.rs`): set the tool and invoke the `on_attach_tool` hook. -/
def applyAttachToolAction (actor : Nat) (s1 : State) (idx : Nat) (tool : ToolId) :
    Option State :=
  match (s1.in_play_pokemon.get actor).get? idx with
  | some (some pc) =>
    let s2 := { s1 with in_play_pokemon := (s1.in_play_pokemon.modify actor
        (fun row => row.set idx (some { pc with attached_tool := some tool }))) }
    some (onAttachTool s2 actor idx tool)
  | _ => none

/-- The `Place` arm of `apply_deterministic_action` (`apply_action.rs`):
place the basic into the slot (a write out of the fixed array bounds
panics, embedded as `none`), then remove the card from the hand. -/
def applyPlace (actor : Nat) (s1 : State) (card : Card) (index : Nat) : Option State :=
  (toPlayableCard card true).bind fun played =>
    if index < (s1.in_play_pokemon.get actor).length then
      let s2 := { s1 with in_play_pokemon := (s1.in_play_pokemon.modify actor
          (fun row => row.set index (some played))) }
      s2.remove_card_from_hand actor card
    else none

/-- Embeds `apply_deterministic_action` (`apply_action.rs`): the common
prelude followed by the per-kind mutation; the wildcard panic for
non-deterministic kinds is embedded as `none`. -/
def applyDeterministicAction (s : State) (a : Action) : Option State :=
  (applyCommonMutation s a).bind fun s1 =>
    match a.action with
    | .drawCard => some (s1.maybe_draw_card a.actor)
    | .attach attachments is_turn_energy =>
      applyAttachList a.actor s1 attachments is_turn_energy
    | .attachTool idx tool => applyAttachToolAction a.actor s1 idx tool
    | .place card index => applyPlace a.actor s1 card index
    | .evolve card position => applyEvolve a.actor s1 card position
    | .useAbility position => applyAbilitiesAction a.actor s1 position
    | .activate idx => applyRetreat a.actor s1 idx true
    | .retreat position => applyRetreat a.actor s1 position false
    | .applyDamage targets => some (handleAttackDamage s1 a.actor targets)
    | .heal idx amount => applyHealing a.actor s1 idx amount
    | _ => none

/-- Embeds `State::get_pokemon_safe` (`safe_state.rs`). -/
def getPokemonSafe (s : State) (player position : Nat) : Except GameError PlayedCard :=
  if 2 ≤ player then .error (.invalidPlayer player)
  else if 4 ≤ position then .error (.invalidCardPosition position 3)
  else
    match (s.in_play_pokemon.get player).get? position with
    | some (some pc) => .ok pc
    | _ => .error (.noPokemonAtPosition player position)

/-- Embeds `State::get_active_safe` (`safe_state.rs`). -/
def getActiveSafe (s : State) (player : Nat) : Except GameError PlayedCard :=
  if 2 ≤ player then .error (.invalidPlayer player)
  else
    match (s.in_play_pokemon.get player).get? 0 with
    | some (some pc) => .ok pc
    | _ => .error (.noActivePokemon player)

/-- Embeds `apply_retreat_safe` (`safe_state.rs`): validates the player,
the bench position (1-3), the bench occupant and — for a paid retreat —
the energy payment (`MissingEnergy` carries the debug names of the
required and available energies), then performs the same mutation as
`apply_retreat`.  The pair returns the `GameResult` together with the
(possibly mutated) state, mirroring the in-place `&mut State` signature. -/
def applyRetreatSafe (acting : Nat) (s : State) (bench_idx : Nat) (is_free : Bool) :
    Except GameError Unit × State :=
  if 2 ≤ acting then (.error (.invalidPlayer acting), s)
  else if 4 ≤ bench_idx ∨ bench_idx = 0 then
    (.error (.invalidAction "Retreat" "Can only retreat to bench positions 1-3"), s)
  else
    match getPokemonSafe s acting bench_idx with
    | .error e => (.error e, s)
    | .ok _ =>
      let paid : Except GameError State :=
        if is_free then .ok s
        else
          match getActiveSafe s acting with
          | .error e => .error e
          | .ok active =>
            let cost := getRetreatCost s active
            if active.attached_energy.length < cost.length then
              .error (.missingEnergy (cost.map energyName)
                (active.attached_energy.map energyName))
            else
              let active1 := { active with attached_energy :=
                (active.attached_energy.take (active.attached_energy.length - cost.length)) }
              .ok { s with in_play_pokemon := (s.in_play_pokemon.modify acting
                  (fun row => row.set 0 (some active1))) }
      match paid with
      | .error e => (.error e, s)
      | .ok s1 =>
        let row1 := swapTotal (s1.in_play_pokemon.get acting) 0 bench_idx
        let row2 :=
          match row1.get? bench_idx with
          | some (some pc) =>
            row1.set bench_idx (some { pc with poisoned := false, paralyzed := false,
                                               asleep := false })
          | _ => row1
        (.ok (), { s1 with in_play_pokemon := s1.in_play_pokemon.set acting row2,
                           has_retreated := true })

/-- Forecast probability vector (`Probabilities` in
`apply_action_helpers.rs`).  The Rust `f64` literals produced by the
forecasts in src are all small dyadic rationals whose sums are exact in
`f64`, so the vector is embedded with rational entries. -/
def Probabilities : Type := List ℚ

/-- One lazy mutation: takes the engine RNG, the state and the action and
commits one outcome (`none` embeds a panic). -/
def Mutation : Type := Rng → State → Action → Option (State × Rng)

/-- Vector of lazy mutations. -/
def Mutations : Type := List Mutation

/-- Lifts an RNG-free effect to a `Mutation`. -/
def liftEffect (f : State → Action → Option State) : Mutation :=
  fun r s a => (f s a).map (fun s1 => (s1, r))

/-- Embeds `deterministic_safe` (`safe_trainer_actions.rs`): one outcome
with probability 1.0 whose commit runs the common prelude followed by the
effect. -/
def deterministicSafe (f : Mutation) : Probabilities × Mutations :=
  ([1], [fun r s a => (applyCommonMutation s a).bind (fun s1 => f r s1 a)])

/-- Embeds `inner_healing_effect_safe` (`safe_trainer_actions.rs`). -/
def innerHealingEffectSafe (s : State) (a : Action) (amount : Nat)
    (energy : Option EnergyType) : State :=
  let possible := ((s.enumerate_in_play_pokemon a.actor).filter
      (fun p => energy.isNone || p.2.get_energy_type == energy)).map
    (fun p => SimpleAction.heal p.1 amount)
  if possible.isEmpty then s
  else { s with move_generation_stack := s.move_generation_stack ++ [(a.actor, possible)] }

/-- Embeds `potion_effect_safe` (`safe_trainer_actions.rs`). -/
def potionEffectSafe (s : State) (a : Action) : Option State :=
  some (innerHealingEffectSafe s a 20 none)

/-- Embeds `erika_effect_safe` (`safe_trainer_actions.rs`). -/
def erikaEffectSafe (s : State) (a : Action) : Option State :=
  some (innerHealingEffectSafe s a 50 (some EnergyType.grass))

/-- Embeds `koga_effect_safe` (`safe_trainer_actions.rs`). -/
def kogaEffectSafe (s : State) (a : Action) : Option State :=
  let possible := ((s.enumerate_in_play_pokemon a.actor).filter
      (fun p => p.2.is_poisoned)).map (fun p => SimpleAction.activate p.1)
  if possible.isEmpty then some s
  else some { s with move_generation_stack := s.move_generation_stack ++ [(a.actor, possible)] }

/-- Embeds `giovanni_effect_safe` (`safe_trainer_actions.rs`). -/
def giovanniEffectSafe (s : State) (a : Action) : Option State :=
  match a.action with
  | .play tc => some (s.add_turn_effect (Card.trainer tc) 0)
  | _ => some s

/-- Embeds `turn_effect_safe` (`safe_trainer_actions.rs`, used by X Speed
and Leaf). -/
def turnEffectSafe (s : State) (a : Action) : Option State :=
  match a.action with
  | .play tc => some (s.add_turn_effect (Card.trainer tc) 0)
  | _ => some s

/-- Embeds `sabrina_effect_safe` (`safe_trainer_actions.rs`): pushes the
opposing activation frame unconditionally. -/
def sabrinaEffectSafe (s : State) (a : Action) : Option State :=
  let opponent := (a.actor + 1) % 2
  let possible := (s.enumerate_bench_pokemon opponent).map
    (fun p => SimpleAction.activate p.1)
  some { s with move_generation_stack := s.move_generation_stack ++ [(opponent, possible)] }

/-- Embeds `cyrus_effect_safe` (`safe_trainer_actions.rs`). -/
def cyrusEffectSafe (s : State) (a : Action) : Option State :=
  let opponent := (a.actor + 1) % 2
  let possible := ((s.enumerate_bench_pokemon opponent).filter
      (fun p => p.2.is_damaged)).map (fun p => SimpleAction.activate p.1)
  some { s with move_generation_stack := s.move_generation_stack ++ [(opponent, possible)] }

/-- Embeds `attach_tool_safe` (`safe_trainer_actions.rs`); the
`ToolId should exist` expect is embedded as `none`. -/
def attachToolSafe (s : State) (a : Action) : Option State :=
  match a.action with
  | .play tc =>
    (ToolId.fromTrainerCard tc).map fun tool =>
      let choices := ((s.enumerate_in_play_pokemon a.actor).filter
          (fun p => !p.2.has_tool_attached)).map
        (fun p => SimpleAction.attachTool p.1 tool)
      if choices.isEmpty then s
      else { s with move_generation_stack := s.move_generation_stack ++ [(a.actor, choices)] }
  | _ => some s

/-- Embeds the commit closure of `professor_research_outcomes_safe`
(`safe_trainer_actions.rs`): queue two draws, revealing nothing. -/
def professorResearchCommit : Mutation :=
  fun r s a => (applyCommonMutation s a).map fun s1 =>
    (((s1.queue_draw_action a.actor).queue_draw_action a.actor), r)

/-- Embeds `professor_research_outcomes_safe` (`safe_trainer_actions.rs`). -/
def professor_research_outcomes_safe (_acting : Nat) (_s : State) :
    Probabilities × Mutations :=
  ([1], [professorResearchCommit])

/-- Random-basic selection of the Poke Ball commit
(`safe_trainer_actions.rs`): choose one basic from the deck (hidden from
the forecast) and move it to the hand. -/
def pokeballPick (actor : Nat) (s1 : State) (r : Rng) : Option (State × Rng) :=
  let basics := ((s1.decks.get actor).cards.enum).filter (fun p => p.2.is_basic)
  if basics.isEmpty then some (s1, r)
  else
    match chooseList basics r with
    | none => none
    | some ((idx, card), r1) =>
      some ({ s1 with hands := s1.hands.modify actor (fun h => h ++ [card]),
                      decks := (s1.decks.modify actor
                        (fun d => { d with cards := d.cards.eraseIdx idx })) }, r1)

/-- Shuffle of the acting deck at the end of the Poke Ball commit. -/
def shuffleActorDeck (actor : Nat) (p : State × Rng) : State × Rng :=
  let sh := (p.1.decks.get actor).shuffle false p.2
  ({ p.1 with decks := p.1.decks.set actor sh.1 }, sh.2)

/-- Embeds the has-basic commit closure of `pokeball_outcomes_safe`
(`safe_trainer_actions.rs`): pick a random basic, then shuffle. -/
def pokeballCommit : Mutation :=
  fun r s a =>
    (applyCommonMutation s a).bind fun s1 =>
      (pokeballPick a.actor s1 r).map (shuffleActorDeck a.actor)

/-- Embeds `pokeball_outcomes_safe` (`safe_trainer_actions.rs`): one
outcome either way; with no basic in the deck the commit merely shuffles. -/
def pokeball_outcomes_safe (acting : Nat) (s : State) : Probabilities × Mutations :=
  let has_basic := (s.decks.get acting).cards.any (fun c => c.is_basic)
  if !has_basic then
    deterministicSafe (fun r s1 a =>
      let sh := (s1.decks.get a.actor).shuffle false r
      some ({ s1 with decks := s1.decks.set a.actor sh.1 }, sh.2))
  else
    ([1], [pokeballCommit])

/-- Embeds the commit closure of `red_card_outcomes_safe`
(`safe_trainer_actions.rs`): the opposing hand is shuffled into the
opposing deck and three draws are queued. -/
def redCardCommit : Mutation :=
  fun r s a =>
    (applyCommonMutation s a).map fun s1 =>
      let opponent := (a.actor + 1) % 2
      let hand := s1.hands.get opponent
      let deck := s1.decks.get opponent
      let sh := Deck.shuffle { deck with cards := deck.cards ++ hand } false r
      let s2 := { s1 with hands := s1.hands.set opponent [],
                          decks := s1.decks.set opponent sh.1 }
      let s3 := ((s2.queue_draw_action opponent).queue_draw_action
          opponent).queue_draw_action opponent
      (s3, sh.2)

/-- Embeds `red_card_outcomes_safe` (`safe_trainer_actions.rs`). -/
def red_card_outcomes_safe (_acting : Nat) (_s : State) : Probabilities × Mutations :=
  ([1], [redCardCommit])

/-- Embeds the commit closure of `mythical_slab_outcomes_safe`
(`safe_trainer_actions.rs`): look at the top card at commit time; a
Psychic Pokemon goes to the hand, anything else to the bottom of the deck. -/
def mythicalSlabCommit : Mutation :=
  fun r s a =>
    (applyCommonMutation s a).map fun s1 =>
      match (s1.decks.get a.actor).cards with
      | [] => (s1, r)
      | c :: rest =>
        if c.is_psychic_type then
          ({ s1 with decks := s1.decks.modify a.actor (fun d => { d with cards := rest }),
                     hands := s1.hands.modify a.actor (fun h => h ++ [c]) }, r)
        else
          ({ s1 with decks := (s1.decks.modify a.actor
              (fun d => { d with cards := rest ++ [c] })) }, r)

/-- Embeds `mythical_slab_outcomes_safe` (`safe_trainer_actions.rs`). -/
def mythical_slab_outcomes_safe (_acting : Nat) (_s : State) : Probabilities × Mutations :=
  ([1], [mythicalSlabCommit])

/-- Embeds the per-bucket commit closure of `misty_outcomes_safe`
(`safe_trainer_actions.rs`): queue an attachment frame of `j` Water
energies for each in-play Water Pokemon of the actor. -/
def mistyCommit (j : Nat) : Mutation :=
  fun r s a =>
    (applyCommonMutation s a).map fun s1 =>
      let possible := ((s1.enumerate_in_play_pokemon a.actor).filter
          (fun p => p.2.get_energy_type == some EnergyType.water)).map
        (fun p => SimpleAction.attach [(j, EnergyType.water, p.1)] false)
      if possible.isEmpty then (s1, r)
      else ({ s1 with move_generation_stack :=
              s1.move_generation_stack ++ [(a.actor, possible)] }, r)

/-- Embeds `misty_outcomes_safe` (`safe_trainer_actions.rs`): the
six-bucket coin-flip forecast with the probability literals written in
the source (0.5, 0.25, 0.125, 0.0625, 0.03125, 0.015625). -/
def misty_outcomes_safe : Probabilities × Mutations :=
  ([1/2, 1/4, 1/8, 1/16, 1/32, 1/64], (List.range 6).map mistyCommit)

/-- Embeds `forecast_trainer_action_safe` (`safe_trainer_actions.rs`):
dispatch on the card id; an unknown numeric id embeds the
`CardId should be known` expect as `none`. -/
def forecast_trainer_action_safe (acting : Nat) (s : State) (tc : TrainerCard) :
    Option (Probabilities × Mutations) :=
  match CardId.fromNumericId tc.numeric_id with
  | none => none
  | some id =>
    match id with
    | .PA001Potion => some (deterministicSafe (liftEffect potionEffectSafe))
    | .PA002XSpeed => some (deterministicSafe (liftEffect turnEffectSafe))
    | .A1219Erika => some (deterministicSafe (liftEffect erikaEffectSafe))
    | .A1266Erika => some (deterministicSafe (liftEffect erikaEffectSafe))
    | .A1222Koga => some (deterministicSafe (liftEffect kogaEffectSafe))
    | .A1269Koga => some (deterministicSafe (liftEffect kogaEffectSafe))
    | .A1223Giovanni => some (deterministicSafe (liftEffect giovanniEffectSafe))
    | .A1270Giovanni => some (deterministicSafe (liftEffect giovanniEffectSafe))
    | .A1225Sabrina => some (deterministicSafe (liftEffect sabrinaEffectSafe))
    | .A1272Sabrina => some (deterministicSafe (liftEffect sabrinaEffectSafe))
    | .A1a068Leaf => some (deterministicSafe (liftEffect turnEffectSafe))
    | .A1a082Leaf => some (deterministicSafe (liftEffect turnEffectSafe))
    | .A2150Cyrus => some (deterministicSafe (liftEffect cyrusEffectSafe))
    | .A2190Cyrus => some (deterministicSafe (liftEffect cyrusEffectSafe))
    | .A2147GiantCape => some (deterministicSafe (liftEffect attachToolSafe))
    | .PA005PokeBall => some (pokeball_outcomes_safe acting s)
    | .PA006RedCard => some (red_card_outcomes_safe acting s)
    | .PA007ProfessorsResearch => some (professor_research_outcomes_safe acting s)
    | .A1220Misty => some misty_outcomes_safe
    | .A1267Misty => some misty_outcomes_safe
    | .A1a065MythicalSlab => some (mythical_slab_outcomes_safe acting s)

/-- Embeds `forecast_action` (`apply_action.rs`): the router.  The
deterministic family yields a single certain outcome committing
`apply_deterministic_action`; `Play` routes to the trainer forecast (the
information-safe implementation shipped in src — the plain
`apply_trainer_action.rs` router is absent).  The `Attack` and `EndTurn`
branches dispatch to `forecast_attack` and `forecast_end_turn`, whose
sources are absent from src; they are embedded as `none` and no claim
below concerns them. -/
def forecastAction (s : State) (a : Action) : Option (Probabilities × Mutations) :=
  match a.action with
  | .drawCard | .place _ _ | .attach _ _ | .attachTool _ _ | .evolve _ _
  | .useAbility _ | .activate _ | .retreat _ | .applyDamage _ | .heal _ _ =>
    some ([1], [fun r st act => (applyDeterministicAction st act).map (fun s2 => (s2, r))])
  | .attack _ => none
  | .play tc => forecast_trainer_action_safe a.actor s tc
  | .endTurn => none

/-- Multiset of identity keys of a card list (card identity is Rust card
equality, see `Card.key`). -/
def keysOf (l : List Card) : Multiset String := ((l.map Card.key : List String) : Multiset String)

/-- Identity keys held by one in-play slot: the underlying card plus every
card in `cards_behind`. -/
def slotKeys : Option PlayedCard → Multiset String
  | none => 0
  | some pc => keysOf (pc.card :: pc.cards_behind)

/-- Identity keys held by an in-play row. -/
def rowKeys (row : List (Option PlayedCard)) : Multiset String :=
  (row.map slotKeys).sum

/-- The multiset of card identities a player owns across hand, deck,
discard pile and in-play slots (each `PlayedCard` counting its underlying
card plus its `cards_behind`), per the card-conservation invariant. -/
def playerCardKeys (s : State) (p : Nat) : Multiset String :=
  keysOf (s.hands.get p) + keysOf ((s.decks.get p).cards) +
    keysOf (s.discard_piles.get p) + rowKeys (s.in_play_pokemon.get p)

/-- Legality guard for `Place` taken from the move generator contract
(one action per EMPTY in-play slot): the fast applier overwrites the slot
unconditionally, so only generator-legal `Place` actions are engine
operations. Every other kind needs no guard. -/
def placeLegal (s : State) (a : Action) : Prop :=
  match a.action with
  | .place _ idx => (s.in_play_pokemon.get a.actor).get? idx = some none
  | _ => True

/-- One mutating engine operation, as committed by the engine: a draw, a
discard, a deterministic action commit (with the generator-side `Place`
guard), a turn advance, or a lazy mutation produced by the trainer-card
forecast. -/
inductive Step : State → State → Prop where
  | draw (s : State) (p : Nat) : Step s (s.maybe_draw_card p)
  | discard (s : State) (p : Nat) (c : Card) (s' : State) :
      s.discard_card_from_hand p c = some s' → Step s s'
  | det (s : State) (a : Action) (s' : State) :
      placeLegal s a → applyDeterministicAction s a = some s' → Step s s'
  | advance (s : State) (tr : Rng) (s' : State) (tr' : Rng) :
      s.advance_turn tr = some (s', tr') → Step s s'
  | trainerCommit (s : State) (acting : Nat) (tc : TrainerCard)
      (pm : Probabilities × Mutations) (k : Nat) (m : Mutation) (r : Rng)
      (a : Action) (s' : State) (r' : Rng) :
      forecast_trainer_action_safe acting s tc = some pm →
      pm.2.get? k = some m →
      m r s a = some (s', r') → Step s s'

/-- Reflexive-transitive closure of `Step`: the reachable states. -/
inductive Reachable : State → State → Prop where
  | refl (s : State) : Reachable s s
  | tail (s t u : State) : Reachable s t → Step t u → Reachable s u

/-- Sample basic Pokemon card used by the concrete scenarios (HP and
retreat cost follow spec scenario 2 and 3). -/
def mankeyCard : PokemonCard :=
  { id := "A1 141", name := "Mankey", hp := 50, energy_type := .fighting,
    stage := 0, evolves_from := none, weakness := none, ability := none,
    attacks := [], retreat_cost := [.colorless, .colorless], rarity := "C",
    booster_pack := "A1" }

/-- Sample stage-1 evolution card (spec scenario 3: `total_hp = 90`). -/
def primeapeCard : PokemonCard :=
  { id := "A1 142", name := "Primeape", hp := 90, energy_type := .fighting,
    stage := 1, evolves_from := some "Mankey", weakness := none,
    ability := none, attacks := [], retreat_cost := [.colorless],
    rarity := "C", booster_pack := "A1" }

/-- Sample 70-HP ally card (spec scenario 1). -/
def allyCard : PokemonCard :=
  { id := "A1 005", name := "Caterpie", hp := 70, energy_type := .grass,
    stage := 0, evolves_from := none, weakness := none, ability := none,
    attacks := [], retreat_cost := [.colorless], rarity := "C",
    booster_pack := "A1" }

/-- Sample Potion trainer card (numeric id mapping to `PA001Potion`). -/
def potionTrainerCard : TrainerCard :=
  { id := "P-A 001", numeric_id := 1, name := "Potion",
    trainer_card_type := .item, effect := "Heal 20", rarity := "C",
    booster_pack := "P-A" }

/-- Sample Poke Ball trainer card (numeric id mapping to `PA005PokeBall`). -/
def pokeballTrainerCard : TrainerCard :=
  { id := "P-A 005", numeric_id := 5, name := "Poke Ball",
    trainer_card_type := .item, effect := "Random basic", rarity := "C",
    booster_pack := "P-A" }

/-- Three pairwise distinct trainer cards used to exhibit hand-order
behaviour. -/
def tCard1 : TrainerCard :=
  { id := "T 001", numeric_id := 101, name := "T1", trainer_card_type := .item,
    effect := "", rarity := "C", booster_pack := "T" }

/-- Second distinct trainer card. -/
def tCard2 : TrainerCard :=
  { id := "T 002", numeric_id := 102, name := "T2", trainer_card_type := .item,
    effect := "", rarity := "C", booster_pack := "T" }

/-- Third distinct trainer card. -/
def tCard3 : TrainerCard :=
  { id := "T 003", numeric_id := 103, name := "T3", trainer_card_type := .item,
    effect := "", rarity := "C", booster_pack := "T" }

/-- Small sample deck. -/
def sampleDeckA : Deck :=
  { cards := [.pokemon mankeyCard, .trainer potionTrainerCard],
    energy_types := [.fighting] }

/-- Second small sample deck. -/
def sampleDeckB : Deck :=
  { cards := [.pokemon allyCard, .trainer pokeballTrainerCard],
    energy_types := [.grass] }

/-- Deck declaring two energy types, so that `generate_energy` must
actually sample. -/
def twoEnergyDeck : Deck := { cards := [], energy_types := [.grass, .fire] }

/-- State whose current player has a two-energy deck. -/
def twoEnergyState : State := State.new twoEnergyDeck twoEnergyDeck

/-- State whose first player holds the hand `[T1, T2, T3]`. -/
def threeHandState : State :=
  { State.new sampleDeckA sampleDeckB with
    hands := ⟨[.trainer tCard1, .trainer tCard2, .trainer tCard3], []⟩ }

/-- Damaged Mankey of spec scenario 3: 30 damage taken, one Colorless
attached. -/
def mankeyDamaged : PlayedCard :=
  { card := .pokemon mankeyCard, remaining_hp := 20, total_hp := 50,
    attached_energy := [.colorless], attached_tool := none,
    played_this_turn := false, ability_used := false, poisoned := false,
    paralyzed := false, asleep := false, cards_behind := [] }

/-- State for the evolution scenario: damaged Mankey active, Primeape in
hand. -/
def evolveState : State :=
  { State.new sampleDeckA sampleDeckB with
    hands := ⟨[.pokemon primeapeCard], []⟩,
    in_play_pokemon := ⟨[some mankeyDamaged, none, none, none],
                        [none, none, none, none]⟩ }

/-- Poisoned active Mankey with two Fighting energies (spec scenario 2). -/
def mankeyActive : PlayedCard :=
  { card := .pokemon mankeyCard, remaining_hp := 50, total_hp := 50,
    attached_energy := [.fighting, .fighting], attached_tool := none,
    played_this_turn := false, ability_used := false, poisoned := true,
    paralyzed := false, asleep := false, cards_behind := [] }

/-- Benched fresh Primeape. -/
def primeapeBench : PlayedCard :=
  { card := .pokemon primeapeCard, remaining_hp := 90, total_hp := 90,
    attached_energy := [], attached_tool := none, played_this_turn := false,
    ability_used := false, poisoned := false, paralyzed := false,
    asleep := false, cards_behind := [] }

/-- State for the retreat scenario: poisoned Mankey active, Primeape on
bench slot 1. -/
def retreatState : State :=
  { State.new sampleDeckA sampleDeckB with
    in_play_pokemon := ⟨[some mankeyActive, some primeapeBench, none, none],
                        [none, none, none, none]⟩ }

/-- Active Mankey with a single energy: too few for its retreat cost. -/
def mankeyOneEnergy : PlayedCard :=
  { card := .pokemon mankeyCard, remaining_hp := 50, total_hp := 50,
    attached_energy := [.fighting], attached_tool := none,
    played_this_turn := false, ability_used := false, poisoned := false,
    paralyzed := false, asleep := false, cards_behind := [] }

/-- State for the missing-energy retreat scenario. -/
def poorRetreatState : State :=
  { State.new sampleDeckA sampleDeckB with
    in_play_pokemon := ⟨[some mankeyOneEnergy, some primeapeBench, none, none],
                        [none, none, none, none]⟩ }

/-- The 70-HP ally with 10 damage taken (spec scenario 1). -/
def allyDamaged : PlayedCard :=
  { card := .pokemon allyCard, remaining_hp := 60, total_hp := 70,
    attached_energy := [], attached_tool := none, played_this_turn := false,
    ability_used := false, poisoned := false, paralyzed := false,
    asleep := false, cards_behind := [] }

/-- State for the heal-cap scenario. -/
def healState : State :=
  { State.new sampleDeckA sampleDeckB with
    in_play_pokemon := ⟨[some allyDamaged, none, none, none],
                        [none, none, none, none]⟩ }

end DeckGym
namespace DeckGym

theorem coe_set {α : Type} (l : List α) (i : Nat) (a b : α) (h : l.get? i = some a) :
    ((l.set i b : List α) : Multiset α) + {a} = (↑l : Multiset α) + {b} := by
  induction l generalizing i with
  | nil => simp at h
  | cons x xs ih =>
    cases i with
    | zero =>
      simp only [List.get?] at h
      injection h with h
      subst h
      simp only [List.set]
      simp only [← Multiset.cons_coe, ← Multiset.singleton_add]
      abel
    | succ n =>
      simp only [List.get?] at h
      have hx := ih n h
      simp only [List.set, ← Multiset.cons_coe, ← Multiset.singleton_add] at hx ⊢
      rw [add_assoc, add_assoc, hx]

theorem coe_listSwap {α : Type} (l : List α) (i j : Nat) (l' : List α)
    (h : listSwap l i j = some l') : (↑l' : Multiset α) = (↑l : Multiset α) := by
  unfold listSwap at h
  cases hi : l.get? i with
  | none => rw [hi] at h; simp at h
  | some a =>
    cases hj : l.get? j with
    | none => rw [hi, hj] at h; simp [hi] at h
    | some b =>
      rw [hi, hj] at h
      injection h with h
      subst h
      by_cases hij : i = j
      · subst hij
        rw [hi] at hj
        injection hj with hj
        subst hj
        rw [List.set_set]
        have h1 := coe_set l i a a hi
        exact add_right_cancel h1
      · have hbj : (l.set i b).get? j = some b := by
          rw [List.get?_set_ne b l hij]
          exact hj
        have h1 := coe_set (l.set i b) j b a hbj
        have h2 := coe_set l i a b hi
        have h3 : (((l.set i b).set j a : List α) : Multiset α) + {b} = (↑l : Multiset α) + {b} := by
          rw [h1, h2]
        exact add_right_cancel h3

theorem coe_swapTotal {α : Type} (l : List α) (i j : Nat) :
    ((swapTotal l i j : List α) : Multiset α) = (↑l : Multiset α) := by
  unfold swapTotal
  cases h : listSwap l i j with
  | none => rfl
  | some l' => exact coe_listSwap l i j l' h

theorem coe_fisherYatesAux {α : Type} (n : Nat) (l : List α) (r : Rng) :
    ((fisherYatesAux l r n).1 : Multiset α) = (↑l : Multiset α) := by
  induction n generalizing l r with
  | zero => rfl
  | succ m ih =>
    unfold fisherYatesAux
    rw [ih]
    exact coe_swapTotal l (m + 1) _

theorem coe_shuffleList {α : Type} (l : List α) (r : Rng) :
    ((shuffleList l r).1 : Multiset α) = (↑l : Multiset α) := by
  unfold shuffleList
  by_cases h : l.length ≤ 1
  · simp [h]
  · simp [h, coe_fisherYatesAux]

theorem chooseList_mem {α : Type} (l : List α) (r : Rng) (a : α) (r' : Rng)
    (h : chooseList l r = some (a, r')) : a ∈ l := by
  unfold chooseList at h
  by_cases he : l.isEmpty
  · simp [he] at h
  · simp only [he, if_false] at h
    cases hg : l.get? (r.next l.length).1 with
    | none => rw [hg] at h; simp at h
    | some b =>
      rw [hg] at h
      injection h with h
      have : b = a := congrArg Prod.fst h
      subst this
      exact List.get?_mem hg

end DeckGym
namespace DeckGym

theorem swapRemove_cons_cons_zero {α : Type} (x y : α) (ys : List α) (v : α)
    (hv : (y :: ys).getLast? = some v) :
    swapRemove (x :: y :: ys) 0 = v :: (y :: ys).dropLast := by
  unfold swapRemove
  rw [List.getLast?_cons_cons, hv]
  rfl

theorem swapRemove_cons_cons_succ {α : Type} (x y : α) (ys : List α) (n : Nat) :
    swapRemove (x :: y :: ys) (n + 1) = x :: swapRemove (y :: ys) n := by
  unfold swapRemove
  rw [List.getLast?_cons_cons]
  cases hv : (y :: ys).getLast? with
  | none => simp [List.getLast?_eq_none_iff] at hv
  | some v =>
    simp only [List.set]
    have hne : (y :: ys).set n v ≠ [] := by
      cases n <;> simp [List.set]
    rw [List.dropLast_cons_of_ne_nil hne]

theorem coe_swapRemove {α : Type} (l : List α) (i : Nat) (a : α) (h : l.get? i = some a) :
    ((swapRemove l i : List α) : Multiset α) + {a} = (↑l : Multiset α) := by
  induction l generalizing i with
  | nil => simp at h
  | cons x xs ih =>
    cases xs with
    | nil =>
      cases i with
      | zero =>
        simp only [List.get?] at h
        injection h with h
        subst h
        simp [swapRemove, List.getLast?, List.set]
      | succ n => simp [List.get?] at h
    | cons y ys =>
      obtain ⟨v, hv⟩ : ∃ v, (y :: ys).getLast? = some v := by
        cases hgl : (y :: ys).getLast? with
        | none => simp [List.getLast?_eq_none_iff] at hgl
        | some v => exact ⟨v, rfl⟩
      cases i with
      | zero =>
        simp only [List.get?] at h
        injection h with h
        subst h
        rw [swapRemove_cons_cons_zero x y ys v hv]
        have hd := List.dropLast_append_getLast? v hv
        have hys : (↑(y :: ys) : Multiset α) = ↑((y :: ys).dropLast) + {v} := by
          conv_lhs => rw [← hd]
          rfl
        simp only [← Multiset.cons_coe, ← Multiset.singleton_add, hys]
        abel
      | succ n =>
        simp only [List.get?] at h
        rw [swapRemove_cons_cons_succ]
        have hx := ih n h
        simp only [← Multiset.cons_coe, ← Multiset.singleton_add] at hx ⊢
        rw [add_assoc, hx]

theorem coe_eraseIdx {α : Type} (l : List α) (i : Nat) (a : α) (h : l.get? i = some a) :
    ((l.eraseIdx i : List α) : Multiset α) + {a} = (↑l : Multiset α) := by
  induction l generalizing i with
  | nil => simp at h
  | cons x xs ih =>
    cases i with
    | zero =>
      simp only [List.get?] at h
      injection h with h
      subst h
      simp only [List.eraseIdx, ← Multiset.cons_coe, ← Multiset.singleton_add]
      abel
    | succ n =>
      simp only [List.get?] at h
      have hx := ih n h
      simp only [List.eraseIdx, ← Multiset.cons_coe, ← Multiset.singleton_add] at hx ⊢
      rw [add_assoc, hx]

theorem position_spec {α : Type} (p : α → Bool) (l : List α) (i : Nat)
    (h : position p l = some i) : ∃ x, l.get? i = some x ∧ p x = true := by
  induction l generalizing i with
  | nil => simp [position] at h
  | cons y ys ih =>
    unfold position at h
    by_cases hp : p y
    · rw [if_pos hp] at h
      injection h with h
      subst h
      exact ⟨y, rfl, hp⟩
    · rw [if_neg hp] at h
      cases hpos : position p ys with
      | none => rw [hpos] at h; simp at h
      | some j =>
        rw [hpos, Option.map_some'] at h
        injection h with h
        subst h
        obtain ⟨x, hx, hpx⟩ := ih j hpos
        exact ⟨x, hx, hpx⟩

end DeckGym
namespace DeckGym

theorem keysOf_eq (l : List Card) :
    keysOf l = Multiset.map Card.key (↑l : Multiset Card) := rfl

theorem keysOf_congr (l1 l2 : List Card)
    (h : (↑l1 : Multiset Card) = ↑l2) : keysOf l1 = keysOf l2 := by
  rw [keysOf_eq, keysOf_eq, h]

theorem keysOf_append (l1 l2 : List Card) :
    keysOf (l1 ++ l2) = keysOf l1 + keysOf l2 := by
  unfold keysOf
  rw [List.map_append]
  rfl

theorem keysOf_cons (c : Card) (l : List Card) :
    keysOf (c :: l) = {Card.key c} + keysOf l := by
  unfold keysOf
  rw [List.map_cons, ← Multiset.cons_coe, ← Multiset.singleton_add]

theorem keysOf_swapRemove (l : List Card) (i : Nat) (x : Card)
    (h : l.get? i = some x) :
    keysOf (swapRemove l i) + {Card.key x} = keysOf l := by
  have hc := coe_swapRemove l i x h
  have := congrArg (Multiset.map Card.key) hc
  rw [Multiset.map_add, Multiset.map_singleton] at this
  rw [keysOf_eq, keysOf_eq]
  exact this

theorem keysOf_eraseIdx (l : List Card) (i : Nat) (x : Card)
    (h : l.get? i = some x) :
    keysOf (l.eraseIdx i) + {Card.key x} = keysOf l := by
  have hc := coe_eraseIdx l i x h
  have := congrArg (Multiset.map Card.key) hc
  rw [Multiset.map_add, Multiset.map_singleton] at this
  rw [keysOf_eq, keysOf_eq]
  exact this

theorem rowKeys_eq (row : List (Option PlayedCard)) :
    rowKeys row = (Multiset.map slotKeys (↑row : Multiset (Option PlayedCard))).sum := by
  simp [rowKeys, Multiset.map_coe, Multiset.sum_coe]

theorem rowKeys_congr (r1 r2 : List (Option PlayedCard))
    (h : (↑r1 : Multiset (Option PlayedCard)) = ↑r2) : rowKeys r1 = rowKeys r2 := by
  rw [rowKeys_eq, rowKeys_eq, h]

theorem rowKeys_set (row : List (Option PlayedCard)) (i : Nat)
    (o o' : Option PlayedCard) (h : row.get? i = some o) :
    rowKeys (row.set i o') + slotKeys o = rowKeys row + slotKeys o' := by
  have hc := coe_set row i o o' h
  have hm := congrArg (fun m => (Multiset.map slotKeys m).sum) hc
  simp only [Multiset.map_add, Multiset.map_singleton, Multiset.sum_add,
    Multiset.sum_singleton] at hm
  rw [rowKeys_eq, rowKeys_eq]
  exact hm

theorem rowKeys_set_same (row : List (Option PlayedCard)) (i : Nat)
    (o o' : Option PlayedCard) (h : row.get? i = some o)
    (hk : slotKeys o' = slotKeys o) :
    rowKeys (row.set i o') = rowKeys row := by
  have := rowKeys_set row i o o' h
  rw [hk] at this
  exact add_right_cancel this

theorem rowKeys_map_preserving (row : List (Option PlayedCard))
    (f : PlayedCard → PlayedCard)
    (hf : ∀ pc, (f pc).card = pc.card ∧ (f pc).cards_behind = pc.cards_behind) :
    rowKeys (row.map (fun x => x.map f)) = rowKeys row := by
  unfold rowKeys
  rw [List.map_map]
  congr 1
  apply List.map_congr_left
  intro o _
  cases o with
  | none => rfl
  | some pc =>
    simp only [Function.comp, Option.map_some', slotKeys]
    rw [(hf pc).1, (hf pc).2]

end DeckGym
namespace DeckGym

theorem Pair2.get_set' {α : Type} (x : Pair2 α) (i j : Nat) (a : α) :
    (x.set i a).get j = if (j = 0) ↔ (i = 0) then a else x.get j := by
  unfold Pair2.get Pair2.set
  by_cases hi : i = 0 <;> by_cases hj : j = 0 <;> simp [hi, hj]

theorem Pair2.get_modify' {α : Type} (x : Pair2 α) (i j : Nat) (f : α → α) :
    (x.modify i f).get j = if (j = 0) ↔ (i = 0) then f (x.get j) else x.get j := by
  unfold Pair2.modify
  rw [Pair2.get_set']
  by_cases hi : i = 0 <;> by_cases hj : j = 0 <;>
    simp [hi, hj, Pair2.get]

theorem Pair2.get_congr {α : Type} (x : Pair2 α) (i j : Nat)
    (h : (j = 0) ↔ (i = 0)) : x.get j = x.get i := by
  unfold Pair2.get
  by_cases hi : i = 0
  · simp [hi, h.mpr hi]
  · have hj : ¬ j = 0 := fun hj => hi (h.mp hj)
    simp [hi, hj]

theorem keysOf_nil : keysOf [] = 0 := rfl

theorem keysOf_singleton (c : Card) : keysOf [c] = {Card.key c} := by
  rw [keysOf_cons]
  simp [keysOf]

theorem remove_card_spec (s : State) (p : Nat) (c : Card) (s' : State)
    (h : s.remove_card_from_hand p c = some s') :
    ∃ i x, (s.hands.get p).get? i = some x ∧ Card.key x = Card.key c ∧
      s' = { s with hands := s.hands.modify p (fun hd => swapRemove hd i) } := by
  unfold State.remove_card_from_hand at h
  cases hpos : position (fun x => cardEq x c) (s.hands.get p) with
  | none => rw [hpos] at h; simp at h
  | some i =>
    rw [hpos] at h
    injection h with h
    obtain ⟨x, hx, hpx⟩ := position_spec _ _ _ hpos
    refine ⟨i, x, hx, ?_, h.symm⟩
    unfold cardEq at hpx
    exact eq_of_beq hpx

theorem draw_keys (s : State) (p : Nat) (q : Nat) :
    playerCardKeys (s.maybe_draw_card p) q = playerCardKeys s q := by
  unfold State.maybe_draw_card
  cases hd : (s.decks.get p).draw with
  | none => rfl
  | some cd =>
    obtain ⟨c, d'⟩ := cd
    unfold Deck.draw at hd
    cases hc : (s.decks.get p).cards with
    | nil => rw [hc] at hd; simp at hd
    | cons c0 rest =>
      rw [hc] at hd
      injection hd with hd
      have hcc : c0 = c := congrArg Prod.fst hd
      have hdd : ({ s.decks.get p with cards := rest } : Deck) = d' :=
        congrArg Prod.snd hd
      subst hcc
      unfold playerCardKeys
      simp only [Pair2.get_set', Pair2.get_modify']
      by_cases hq : (q = 0) ↔ (p = 0)
      · rw [if_pos hq, if_pos hq]
        rw [Pair2.get_congr s.hands p q hq, Pair2.get_congr s.decks p q hq]
        rw [← hdd, hc]
        simp only [keysOf_append, keysOf_cons, keysOf_singleton, keysOf_nil]
        abel
      · rw [if_neg hq, if_neg hq]

theorem discard_keys (s : State) (p : Nat) (c : Card) (s' : State)
    (h : s.discard_card_from_hand p c = some s') (q : Nat) :
    playerCardKeys s' q = playerCardKeys s q := by
  unfold State.discard_card_from_hand at h
  cases hr : s.remove_card_from_hand p c with
  | none => rw [hr] at h; simp at h
  | some s1 =>
    rw [hr] at h
    simp only [Option.map_some'] at h
    injection h with h
    obtain ⟨i, x, hx, hkey, hs1⟩ := remove_card_spec s p c s1 hr
    subst hs1
    subst h
    unfold playerCardKeys
    simp only [Pair2.get_modify']
    by_cases hq : (q = 0) ↔ (p = 0)
    · rw [if_pos hq, if_pos hq]
      have hxq : (s.hands.get q).get? i = some x := by
        rw [Pair2.get_congr s.hands p q hq]; exact hx
      have hsw := keysOf_swapRemove (s.hands.get q) i x hxq
      rw [keysOf_append, keysOf_singleton, ← hsw, ← hkey]
      abel
    · rw [if_neg hq, if_neg hq]

end DeckGym
namespace DeckGym

theorem shuffle_cards_keys (d : Deck) (b : Bool) (r : Rng) :
    keysOf ((d.shuffle b r).1).cards = keysOf d.cards := by
  unfold Deck.shuffle
  exact keysOf_congr _ _ (coe_shuffleList d.cards r)

theorem common_keys (s : State) (a : Action) (s' : State)
    (h : applyCommonMutation s a = some s') (q : Nat) :
    playerCardKeys s' q = playerCardKeys s q := by
  unfold applyCommonMutation at h
  by_cases hst : a.is_stack
  · rw [if_pos hst] at h
    injection h with h
    subst h
    rfl
  · rw [if_neg hst] at h
    cases ha : a.action with
    | play tc =>
      rw [ha] at h
      dsimp only at h
      cases hd : s.discard_card_from_hand a.actor (Card.trainer tc) with
      | none => rw [hd] at h; simp at h
      | some s1 =>
        rw [hd] at h
        simp only [Option.map_some'] at h
        injection h with h
        have h1 := discard_keys s a.actor (Card.trainer tc) s1 hd q
        by_cases hs : tc.trainer_card_type = TrainerType.supporter
        · rw [if_pos hs] at h
          subst h
          exact h1
        · rw [if_neg hs] at h
          subst h
          exact h1
    | drawCard => rw [ha] at h; dsimp only at h; injection h with h; subst h; rfl
    | place c i => rw [ha] at h; dsimp only at h; injection h with h; subst h; rfl
    | attach l b => rw [ha] at h; dsimp only at h; injection h with h; subst h; rfl
    | attachTool i t => rw [ha] at h; dsimp only at h; injection h with h; subst h; rfl
    | evolve c i => rw [ha] at h; dsimp only at h; injection h with h; subst h; rfl
    | useAbility i => rw [ha] at h; dsimp only at h; injection h with h; subst h; rfl
    | activate i => rw [ha] at h; dsimp only at h; injection h with h; subst h; rfl
    | retreat i => rw [ha] at h; dsimp only at h; injection h with h; subst h; rfl
    | applyDamage t => rw [ha] at h; dsimp only at h; injection h with h; subst h; rfl
    | heal i n => rw [ha] at h; dsimp only at h; injection h with h; subst h; rfl
    | attack i => rw [ha] at h; dsimp only at h; injection h with h; subst h; rfl
    | endTurn => rw [ha] at h; dsimp only at h; injection h with h; subst h; rfl

theorem healing_keys (p : Nat) (s : State) (pos amount : Nat) (s' : State)
    (h : applyHealing p s pos amount = some s') (q : Nat) :
    playerCardKeys s' q = playerCardKeys s q := by
  unfold applyHealing at h
  cases hslot : (s.in_play_pokemon.get p).get? pos with
  | none => rw [hslot] at h; simp at h
  | some o =>
    cases o with
    | none => rw [hslot] at h; simp at h
    | some pc =>
      rw [hslot] at h
      injection h with h
      subst h
      unfold playerCardKeys
      simp only [Pair2.get_modify']
      by_cases hq : (q = 0) ↔ (p = 0)
      · rw [if_pos hq]
        have hsq : (s.in_play_pokemon.get q).get? pos = some (some pc) := by
          rw [Pair2.get_congr _ p q hq]; exact hslot
        rw [rowKeys_set_same _ pos (some pc) (some (pc.heal amount)) hsq rfl]
      · rw [if_neg hq]

end DeckGym
namespace DeckGym

theorem retreatPay_keys (p : Nat) (s : State) (free : Bool) (s1 : State)
    (h : retreatPayPhase p s free = some s1) (q : Nat) :
    playerCardKeys s1 q = playerCardKeys s q := by
  unfold retreatPayPhase at h
  by_cases hf : free
  · rw [if_pos hf] at h
    injection h with h
    subst h
    rfl
  · rw [if_neg hf] at h
    cases hslot : (s.in_play_pokemon.get p).get? 0 with
    | none => rw [hslot] at h; simp at h
    | some o =>
      cases o with
      | none => rw [hslot] at h; simp at h
      | some active =>
        rw [hslot] at h
        dsimp only at h
        by_cases hlen : active.attached_energy.length < (getRetreatCost s active).length
        · rw [if_pos hlen] at h; simp at h
        · rw [if_neg hlen] at h
          injection h with h
          subst h
          unfold playerCardKeys
          simp only [Pair2.get_modify']
          by_cases hq : (q = 0) ↔ (p = 0)
          · rw [if_pos hq]
            have hsq : (s.in_play_pokemon.get q).get? 0 = some (some active) := by
              rw [Pair2.get_congr _ p q hq]; exact hslot
            rw [rowKeys_set_same _ 0 (some active) (some { active with attached_energy :=
              (active.attached_energy.take
                (active.attached_energy.length - (getRetreatCost s active).length)) }) hsq rfl]
          · rw [if_neg hq]

theorem retreatSwap_keys (p idx : Nat) (s1 : State) (s' : State)
    (h : retreatSwapPhase p idx s1 = some s') (q : Nat) :
    playerCardKeys s' q = playerCardKeys s1 q := by
  unfold retreatSwapPhase at h
  cases hsw : listSwap (s1.in_play_pokemon.get p) 0 idx with
  | none => rw [hsw] at h; simp at h
  | some row1 =>
    rw [hsw] at h
    dsimp only at h
    have hrow1 : rowKeys row1 = rowKeys (s1.in_play_pokemon.get p) :=
      rowKeys_congr _ _ (coe_listSwap _ 0 idx row1 hsw)
    have hrow2 : ∀ row2 : List (Option PlayedCard),
        (match row1.get? idx with
         | some (some pc) =>
           row1.set idx (some { pc with poisoned := false, paralyzed := false,
                                        asleep := false })
         | _ => row1) = row2 → rowKeys row2 = rowKeys row1 := by
      intro row2 h2
      cases hg : row1.get? idx with
      | none => rw [hg] at h2; subst h2; rfl
      | some o =>
        cases o with
        | none => rw [hg] at h2; subst h2; rfl
        | some pc =>
          rw [hg] at h2
          subst h2
          exact rowKeys_set_same _ idx (some pc) _ hg rfl
    injection h with h
    subst h
    unfold playerCardKeys
    simp only [Pair2.get_set']
    by_cases hq : (q = 0) ↔ (p = 0)
    · rw [if_pos hq]
      rw [hrow2 _ rfl, hrow1, Pair2.get_congr s1.in_play_pokemon p q hq]
    · rw [if_neg hq]

theorem retreat_keys (p : Nat) (s : State) (idx : Nat) (free : Bool) (s' : State)
    (h : applyRetreat p s idx free = some s') (q : Nat) :
    playerCardKeys s' q = playerCardKeys s q := by
  unfold applyRetreat at h
  cases h1 : retreatPayPhase p s free with
  | none => rw [h1] at h; simp at h
  | some s1 =>
    rw [h1] at h
    simp only [Option.bind_some, Option.some_bind] at h
    rw [retreatSwap_keys p idx s1 s' h q]
    exact retreatPay_keys p s free s1 h1 q

end DeckGym
namespace DeckGym

theorem evolve_keys (p : Nat) (s : State) (card : Card) (pos : Nat) (s' : State)
    (h : applyEvolve p s card pos = some s') (q : Nat) :
    playerCardKeys s' q = playerCardKeys s q := by
  unfold applyEvolve at h
  cases htp : toPlayableCard card true with
  | none => rw [htp] at h; simp at h
  | some played =>
    rw [htp] at h
    simp only [Option.some_bind] at h
    cases hslot : (s.in_play_pokemon.get p).get? pos with
    | none => rw [hslot] at h; simp at h
    | some o =>
      cases o with
      | none => rw [hslot] at h; simp at h
      | some old =>
        rw [hslot] at h
        cases card with
        | trainer tc => simp at h
        | pokemon pc =>
          dsimp only at h
          by_cases hst : pc.stage = 0
          · rw [if_pos hst] at h; simp at h
          · rw [if_neg hst] at h
            by_cases hhp : old.total_hp < old.remaining_hp
            · rw [if_pos hhp] at h; simp at h
            · rw [if_neg hhp] at h
              by_cases hdm : played.remaining_hp < old.total_hp - old.remaining_hp
              · rw [if_pos hdm] at h; simp at h
              · rw [if_neg hdm] at h
                obtain ⟨i, x, hx, hkey, hs'⟩ := remove_card_spec _ _ _ _ h
                subst hs'
                unfold playerCardKeys
                simp only [Pair2.get_modify']
                by_cases hq : (q = 0) ↔ (p = 0)
                · rw [if_pos hq, if_pos hq]
                  have hxq : (s.hands.get q).get? i = some x := by
                    rw [Pair2.get_congr s.hands p q hq]; exact hx
                  have hrq : (s.in_play_pokemon.get q).get? pos = some (some old) := by
                    rw [Pair2.get_congr s.in_play_pokemon p q hq]; exact hslot
                  have hA := keysOf_swapRemove (s.hands.get q) i x hxq
                  have hR := rowKeys_set (s.in_play_pokemon.get q) pos (some old)
                    (some { played with
                            remaining_hp := played.remaining_hp -
                              (old.total_hp - old.remaining_hp)
                            attached_energy := old.attached_energy
                            cards_behind := old.cards_behind ++ [old.card] }) hrq
                  have hSN : slotKeys (some { played with
                      remaining_hp := played.remaining_hp - (old.total_hp - old.remaining_hp)
                      attached_energy := old.attached_energy
                      cards_behind := old.cards_behind ++ [old.card] }) =
                      {Card.key played.card} + slotKeys (some old) := by
                    simp only [slotKeys, keysOf_cons, keysOf_append, keysOf_singleton]
                    abel
                  rw [hSN] at hR
                  have hR2 : rowKeys ((s.in_play_pokemon.get q).set pos
                      (some { played with
                              remaining_hp := played.remaining_hp -
                                (old.total_hp - old.remaining_hp)
                              attached_energy := old.attached_energy
                              cards_behind := old.cards_behind ++ [old.card] })) =
                      rowKeys (s.in_play_pokemon.get q) + {Card.key played.card} := by
                    refine add_right_cancel (b := slotKeys (some old)) ?_
                    rw [hR]
                    abel
                  have hplayed : played.card = Card.pokemon pc := by
                    unfold toPlayableCard at htp
                    injection htp with htp
                    rw [← htp]
                  rw [hR2, hplayed, ← hkey, ← hA]
                  abel
                · rw [if_neg hq, if_neg hq]

end DeckGym
namespace DeckGym

theorem place_keys (p : Nat) (s1 : State) (card : Card) (index : Nat) (s' : State)
    (hleg : (s1.in_play_pokemon.get p).get? index = some none)
    (h : applyPlace p s1 card index = some s') (q : Nat) :
    playerCardKeys s' q = playerCardKeys s1 q := by
  unfold applyPlace at h
  cases htp : toPlayableCard card true with
  | none => rw [htp] at h; simp at h
  | some played =>
    rw [htp] at h
    simp only [Option.some_bind] at h
    by_cases hlt : index < (s1.in_play_pokemon.get p).length
    · rw [if_pos hlt] at h
      obtain ⟨i, x, hx, hkey, hs'⟩ := remove_card_spec _ _ _ _ h
      subst hs'
      unfold playerCardKeys
      simp only [Pair2.get_modify']
      by_cases hq : (q = 0) ↔ (p = 0)
      · rw [if_pos hq, if_pos hq]
        have hxq : (s1.hands.get q).get? i = some x := by
          rw [Pair2.get_congr s1.hands p q hq]; exact hx
        have hrq : (s1.in_play_pokemon.get q).get? index = some none := by
          rw [Pair2.get_congr s1.in_play_pokemon p q hq]; exact hleg
        have hA := keysOf_swapRemove (s1.hands.get q) i x hxq
        have hR := rowKeys_set (s1.in_play_pokemon.get q) index none (some played) hrq
        have hplayed : slotKeys (some played) = {Card.key card} := by
          cases card with
          | trainer tc => simp [toPlayableCard] at htp
          | pokemon pc =>
            unfold toPlayableCard at htp
            injection htp with htp
            rw [← htp]
            simp [slotKeys, keysOf_cons, keysOf_nil]
        rw [hplayed] at hR
        simp only [slotKeys, add_zero] at hR
        rw [hR, ← hkey, ← hA]
        abel
      · rw [if_neg hq, if_neg hq]
    · rw [if_neg hlt] at h
      simp at h

theorem attachOne_keys (actor : Nat) (st : State) (att : Nat × EnergyType × Nat)
    (s' : State) (h : attachOne actor (some st) att = some s') (q : Nat) :
    playerCardKeys s' q = playerCardKeys st q := by
  unfold attachOne at h
  simp only [Option.some_bind] at h
  cases hslot : (st.in_play_pokemon.get actor).get? att.2.2 with
  | none => rw [hslot] at h; simp at h
  | some o =>
    cases o with
    | none => rw [hslot] at h; simp at h
    | some pc =>
      rw [hslot] at h
      dsimp only at h
      injection h with h
      subst h
      unfold playerCardKeys
      simp only [Pair2.get_modify']
      by_cases hq : (q = 0) ↔ (actor = 0)
      · rw [if_pos hq]
        have hsq : (st.in_play_pokemon.get q).get? att.2.2 = some (some pc) := by
          rw [Pair2.get_congr _ actor q hq]; exact hslot
        rw [rowKeys_set_same _ att.2.2 (some pc) (some { pc with attached_energy :=
          (pc.attached_energy ++ List.replicate att.1 att.2.1) }) hsq rfl]
      · rw [if_neg hq]

theorem attachFold_none (actor : Nat) (atts : List (Nat × EnergyType × Nat)) :
    atts.foldl (attachOne actor) none = none := by
  induction atts with
  | nil => rfl
  | cons y ys ih =>
    simp only [List.foldl_cons]
    rw [show attachOne actor none y = none from rfl]
    exact ih

theorem attachFold_keys (actor : Nat) (atts : List (Nat × EnergyType × Nat))
    (st : State) (s' : State)
    (h : atts.foldl (attachOne actor) (some st) = some s') (q : Nat) :
    playerCardKeys s' q = playerCardKeys st q := by
  induction atts generalizing st with
  | nil =>
    simp only [List.foldl_nil] at h
    injection h with h
    subst h
    rfl
  | cons att rest ih =>
    simp only [List.foldl_cons] at h
    cases h1 : attachOne actor (some st) att with
    | none =>
      rw [h1] at h
      rw [attachFold_none actor rest] at h
      simp at h
    | some st1 =>
      rw [h1] at h
      rw [ih st1 h, attachOne_keys actor st att st1 h1 q]

theorem attachList_keys (actor : Nat) (s1 : State)
    (atts : List (Nat × EnergyType × Nat)) (b : Bool) (s' : State)
    (h : applyAttachList actor s1 atts b = some s') (q : Nat) :
    playerCardKeys s' q = playerCardKeys s1 q := by
  unfold applyAttachList at h
  cases hf : atts.foldl (attachOne actor) (some s1) with
  | none => rw [hf] at h; simp at h
  | some st =>
    rw [hf] at h
    simp only [Option.map_some'] at h
    injection h with h
    have hk := attachFold_keys actor atts s1 st hf q
    by_cases hb : b = true
    · rw [if_pos hb] at h
      subst h
      exact hk
    · rw [if_neg hb] at h
      subst h
      exact hk

end DeckGym
namespace DeckGym

theorem onAttachTool_keys (s : State) (p idx : Nat) (tool : ToolId) (q : Nat) :
    playerCardKeys (onAttachTool s p idx tool) q = playerCardKeys s q := by
  unfold onAttachTool
  cases tool with
  | PA010RockyHelmet => rfl
  | A2147GiantCape =>
    cases hslot : (s.in_play_pokemon.get p).get? idx with
    | none => rfl
    | some o =>
      cases o with
      | none => rfl
      | some pc =>
        unfold playerCardKeys
        simp only [Pair2.get_modify']
        by_cases hq : (q = 0) ↔ (p = 0)
        · rw [if_pos hq]
          have hsq : (s.in_play_pokemon.get q).get? idx = some (some pc) := by
            rw [Pair2.get_congr _ p q hq]; exact hslot
          rw [rowKeys_set_same _ idx (some pc) (some { pc with
            total_hp := pc.total_hp + 20, remaining_hp := pc.remaining_hp + 20 }) hsq rfl]
        · rw [if_neg hq]

theorem attachTool_keys (p : Nat) (s1 : State) (idx : Nat) (tool : ToolId) (s' : State)
    (h : applyAttachToolAction p s1 idx tool = some s') (q : Nat) :
    playerCardKeys s' q = playerCardKeys s1 q := by
  unfold applyAttachToolAction at h
  cases hslot : (s1.in_play_pokemon.get p).get? idx with
  | none => rw [hslot] at h; simp at h
  | some o =>
    cases o with
    | none => rw [hslot] at h; simp at h
    | some pc =>
      rw [hslot] at h
      dsimp only at h
      injection h with h
      subst h
      rw [onAttachTool_keys]
      unfold playerCardKeys
      simp only [Pair2.get_modify']
      by_cases hq : (q = 0) ↔ (p = 0)
      · rw [if_pos hq]
        have hsq : (s1.in_play_pokemon.get q).get? idx = some (some pc) := by
          rw [Pair2.get_congr _ p q hq]; exact hslot
        rw [rowKeys_set_same _ idx (some pc)
          (some { pc with attached_tool := some tool }) hsq rfl]
      · rw [if_neg hq]

theorem heal_all_keys (s2 : State) (p q : Nat) :
    playerCardKeys { s2 with in_play_pokemon := (s2.in_play_pokemon.modify p
      (fun row => row.map (fun x => x.map (fun pc2 => pc2.heal 20)))) } q =
    playerCardKeys s2 q := by
  unfold playerCardKeys
  simp only [Pair2.get_modify']
  by_cases hq : (q = 0) ↔ (p = 0)
  · rw [if_pos hq]
    rw [rowKeys_map_preserving _ (fun pc2 => pc2.heal 20) (fun pc2 => ⟨rfl, rfl⟩)]
  · rw [if_neg hq]

theorem poison_active_keys (s2 : State) (opp q : Nat) (pc2 : PlayedCard)
    (h : (s2.in_play_pokemon.get opp).get? 0 = some (some pc2)) :
    playerCardKeys { s2 with in_play_pokemon := (s2.in_play_pokemon.modify opp
      (fun row => row.set 0 (some { pc2 with poisoned := true }))) } q =
    playerCardKeys s2 q := by
  unfold playerCardKeys
  simp only [Pair2.get_modify']
  by_cases hq : (q = 0) ↔ (opp = 0)
  · rw [if_pos hq]
    have hsq : (s2.in_play_pokemon.get q).get? 0 = some (some pc2) := by
      rw [Pair2.get_congr _ opp q hq]; exact h
    rw [rowKeys_set_same _ 0 (some pc2) (some { pc2 with poisoned := true }) hsq rfl]
  · rw [if_neg hq]

theorem ability_keys (p : Nat) (s : State) (pos : Nat) (s' : State)
    (h : applyAbilitiesAction p s pos = some s') (q : Nat) :
    playerCardKeys s' q = playerCardKeys s q := by
  unfold applyAbilitiesAction at h
  cases hslot : (s.in_play_pokemon.get p).get? pos with
  | none => rw [hslot] at h; simp at h
  | some o =>
    cases o with
    | none => rw [hslot] at h; simp at h
    | some pc =>
      rw [hslot] at h
      dsimp only at h
      have habl : ∀ q1, playerCardKeys { s with in_play_pokemon :=
          (s.in_play_pokemon.modify p (fun row => row.set pos
            (some { pc with ability_used := true }))) } q1 = playerCardKeys s q1 := by
        intro q1
        unfold playerCardKeys
        simp only [Pair2.get_modify']
        by_cases hq : (q1 = 0) ↔ (p = 0)
        · rw [if_pos hq]
          have hsq : (s.in_play_pokemon.get q1).get? pos = some (some pc) := by
            rw [Pair2.get_congr _ p q1 hq]; exact hslot
          rw [rowKeys_set_same _ pos (some pc)
            (some { pc with ability_used := true }) hsq rfl]
        · rw [if_neg hq]
      by_cases hbf : pc.get_name = "Butterfree"
      · rw [if_pos hbf] at h
        injection h with h
        subst h
        exact (heal_all_keys _ p q).trans (habl q)
      · rw [if_neg hbf] at h
        by_cases hwz : pc.get_name = "Weezing"
        · rw [if_pos hwz] at h
          cases hopp : ((({ s with in_play_pokemon := (s.in_play_pokemon.modify p
              (fun row => row.set pos (some { pc with ability_used := true }))) } :
                State).in_play_pokemon.get ((p + 1) % 2)).get? 0) with
          | none => rw [hopp] at h; simp at h
          | some o2 =>
            cases o2 with
            | none => rw [hopp] at h; simp at h
            | some pc2 =>
              rw [hopp] at h
              dsimp only at h
              injection h with h
              subst h
              exact (poison_active_keys _ _ q pc2 hopp).trans (habl q)
        · rw [if_neg hwz] at h
          injection h with h
          subst h
          exact habl q

end DeckGym
namespace DeckGym

theorem knockout_keys (s : State) (attacker opponent idx : Nat) (pc pc0 : PlayedCard)
    (hslot : (s.in_play_pokemon.get opponent).get? idx = some (some pc0))
    (hcard : pc.card = pc0.card) (hbehind : pc.cards_behind = pc0.cards_behind)
    (q : Nat) :
    playerCardKeys (handleKnockout s attacker opponent idx pc) q = playerCardKeys s q := by
  unfold handleKnockout
  have hs1 : ∀ q1, playerCardKeys { s with
      discard_piles := (s.discard_piles.modify opponent
        (fun d => d ++ pc.card :: pc.cards_behind)),
      in_play_pokemon := s.in_play_pokemon.modify opponent (fun row => row.set idx none),
      points := s.points.modify attacker (fun x => x + koPoints pc.card) } q1 =
      playerCardKeys s q1 := by
    intro q1
    unfold playerCardKeys
    simp only [Pair2.get_modify']
    by_cases hq : (q1 = 0) ↔ (opponent = 0)
    · rw [if_pos hq, if_pos hq]
      have hsq : (s.in_play_pokemon.get q1).get? idx = some (some pc0) := by
        rw [Pair2.get_congr _ opponent q1 hq]; exact hslot
      have hR := rowKeys_set (s.in_play_pokemon.get q1) idx (some pc0) none hsq
      simp only [slotKeys, add_zero] at hR
      have hslotkeys : keysOf (pc.card :: pc.cards_behind) =
          keysOf (pc0.card :: pc0.cards_behind) := by rw [hcard, hbehind]
      rw [keysOf_append, hslotkeys, ← hR]
      abel
    · rw [if_neg hq, if_neg hq]
  dsimp only
  split
  · split
    · split
      · exact hs1 q
      · exact hs1 q
    · split
      · exact hs1 q
      · exact hs1 q
  · split
    · exact hs1 q
    · exact hs1 q

end DeckGym
namespace DeckGym

theorem damageOne_keys (actor opponent : Nat) (st : State) (t : Nat × Nat) (q : Nat) :
    playerCardKeys (damageOne actor opponent st t) q = playerCardKeys st q := by
  unfold damageOne
  cases hslot : (st.in_play_pokemon.get opponent).get? t.2 with
  | none => rfl
  | some o =>
    cases o with
    | none => rfl
    | some pc =>
      dsimp only
      by_cases hz : (pc.apply_damage t.1).remaining_hp = 0
      · rw [if_pos hz]
        exact knockout_keys st actor opponent t.2 (pc.apply_damage t.1) pc hslot rfl rfl q
      · rw [if_neg hz]
        unfold playerCardKeys
        simp only [Pair2.get_modify']
        by_cases hq : (q = 0) ↔ (opponent = 0)
        · rw [if_pos hq]
          have hsq : (st.in_play_pokemon.get q).get? t.2 = some (some pc) := by
            rw [Pair2.get_congr _ opponent q hq]; exact hslot
          rw [rowKeys_set_same _ t.2 (some pc) (some (pc.apply_damage t.1)) hsq rfl]
        · rw [if_neg hq]

theorem damage_keys (s : State) (actor : Nat) (targets : List (Nat × Nat)) (q : Nat) :
    playerCardKeys (handleAttackDamage s actor targets) q = playerCardKeys s q := by
  unfold handleAttackDamage
  induction targets generalizing s with
  | nil => rfl
  | cons t rest ih =>
    simp only [List.foldl_cons]
    rw [ih (damageOne actor ((actor + 1) % 2) s t)]
    exact damageOne_keys actor ((actor + 1) % 2) s t q

theorem det_keys (s : State) (a : Action) (s' : State)
    (hleg : placeLegal s a) (h : applyDeterministicAction s a = some s') (q : Nat) :
    playerCardKeys s' q = playerCardKeys s q := by
  unfold applyDeterministicAction at h
  cases hc : applyCommonMutation s a with
  | none => rw [hc] at h; simp at h
  | some s1 =>
    rw [hc] at h
    simp only [Option.some_bind] at h
    have hcm := common_keys s a s1 hc q
    cases ha : a.action with
    | drawCard =>
      rw [ha] at h
      injection h with h
      subst h
      rw [draw_keys s1 a.actor q]
      exact hcm
    | place card index =>
      rw [ha] at h
      have hleg2 : (s1.in_play_pokemon.get a.actor).get? index = some none := by
        unfold placeLegal at hleg
        rw [ha] at hleg
        have hs1 : s1.in_play_pokemon = s.in_play_pokemon := by
          unfold applyCommonMutation at hc
          by_cases hst : a.is_stack
          · rw [if_pos hst] at hc; injection hc with hc; rw [← hc]
          · rw [if_neg hst] at hc
            rw [ha] at hc
            dsimp only at hc
            injection hc with hc
            rw [← hc]
        rw [hs1]
        exact hleg
      rw [place_keys a.actor s1 card index s' hleg2 h q]
      exact hcm
    | attach l b =>
      rw [ha] at h
      rw [attachList_keys a.actor s1 l b s' h q]
      exact hcm
    | attachTool idx tool =>
      rw [ha] at h
      rw [attachTool_keys a.actor s1 idx tool s' h q]
      exact hcm
    | evolve card pos =>
      rw [ha] at h
      rw [evolve_keys a.actor s1 card pos s' h q]
      exact hcm
    | useAbility pos =>
      rw [ha] at h
      rw [ability_keys a.actor s1 pos s' h q]
      exact hcm
    | activate idx =>
      rw [ha] at h
      rw [retreat_keys a.actor s1 idx true s' h q]
      exact hcm
    | retreat idx =>
      rw [ha] at h
      rw [retreat_keys a.actor s1 idx false s' h q]
      exact hcm
    | applyDamage targets =>
      rw [ha] at h
      injection h with h
      subst h
      rw [damage_keys s1 a.actor targets q]
      exact hcm
    | heal idx amount =>
      rw [ha] at h
      rw [healing_keys a.actor s1 idx amount s' h q]
      exact hcm
    | attack i => rw [ha] at h; simp at h
    | play tc => rw [ha] at h; simp at h
    | endTurn => rw [ha] at h; simp at h

end DeckGym
namespace DeckGym

theorem reset_keys (s : State) (q : Nat) :
    playerCardKeys s.reset_turn_states q = playerCardKeys s q := by
  unfold State.reset_turn_states playerCardKeys
  dsimp only
  unfold Pair2.get
  by_cases hq : q = 0
  · simp only [hq, if_true]
    rw [rowKeys_map_preserving s.in_play_pokemon.fst
      (fun pc => { pc with played_this_turn := false, ability_used := false })
      (fun pc => ⟨rfl, rfl⟩)]
  · simp only [hq, if_false]
    rw [rowKeys_map_preserving s.in_play_pokemon.snd
      (fun pc => { pc with played_this_turn := false, ability_used := false })
      (fun pc => ⟨rfl, rfl⟩)]

theorem generate_keys (s : State) (tr : Rng) (s2 : State) (tr' : Rng)
    (h : s.generate_energy tr = some (s2, tr')) (q : Nat) :
    playerCardKeys s2 q = playerCardKeys s q := by
  unfold State.generate_energy at h
  cases hes : (s.decks.get s.current_player).energy_types with
  | nil =>
    rw [hes] at h
    simp [chooseList] at h
  | cons e rest =>
    rw [hes] at h
    cases rest with
    | nil =>
      dsimp only at h
      cases hch : chooseList [e] tr with
      | none => rw [hch] at h; simp at h
      | some p =>
        rw [hch] at h
        injection h with h
        have : ∀ x : State × Rng, x = (s2, tr') → x.1 = s2 := by intro x hx; rw [hx]
        have hs2 := this _ h
        rw [← hs2]
        rfl
    | cons e2 rest2 =>
      dsimp only at h
      cases hch : chooseList (e :: e2 :: rest2) tr with
      | none => rw [hch] at h; simp at h
      | some p =>
        rw [hch] at h
        injection h with h
        have : ∀ x : State × Rng, x = (s2, tr') → x.1 = s2 := by intro x hx; rw [hx]
        have hs2 := this _ h
        rw [← hs2]
        rfl

theorem advance_keys (s : State) (tr : Rng) (s' : State) (tr' : Rng)
    (h : s.advance_turn tr = some (s', tr')) (q : Nat) :
    playerCardKeys s' q = playerCardKeys s q := by
  unfold State.advance_turn at h
  dsimp only at h
  have h1 := generate_keys _ tr s' tr' h q
  refine h1.trans ?_
  have h2 := reset_keys { s with current_player := (s.current_player + 1) % 2,
                                 turn_count := u8add s.turn_count 1 } q
  exact h2.trans rfl

theorem innerHealing_keys (s : State) (a : Action) (amount : Nat)
    (en : Option EnergyType) (q : Nat) :
    playerCardKeys (innerHealingEffectSafe s a amount en) q = playerCardKeys s q := by
  unfold innerHealingEffectSafe
  dsimp only
  split <;> rfl

theorem common_then_keys (s : State) (a : Action) (s1 : State)
    (hc : applyCommonMutation s a = some s1)
    (x : Multiset String) (q : Nat) (h : x = playerCardKeys s1 q) :
    x = playerCardKeys s q := h.trans (common_keys s a s1 hc q)

end DeckGym
namespace DeckGym

theorem effects_keys :
    (∀ s a s1 q, potionEffectSafe s a = some s1 → playerCardKeys s1 q = playerCardKeys s q) ∧
    (∀ s a s1 q, erikaEffectSafe s a = some s1 → playerCardKeys s1 q = playerCardKeys s q) ∧
    (∀ s a s1 q, kogaEffectSafe s a = some s1 → playerCardKeys s1 q = playerCardKeys s q) ∧
    (∀ s a s1 q, giovanniEffectSafe s a = some s1 → playerCardKeys s1 q = playerCardKeys s q) ∧
    (∀ s a s1 q, turnEffectSafe s a = some s1 → playerCardKeys s1 q = playerCardKeys s q) ∧
    (∀ s a s1 q, sabrinaEffectSafe s a = some s1 → playerCardKeys s1 q = playerCardKeys s q) ∧
    (∀ s a s1 q, cyrusEffectSafe s a = some s1 → playerCardKeys s1 q = playerCardKeys s q) ∧
    (∀ s a s1 q, attachToolSafe s a = some s1 → playerCardKeys s1 q = playerCardKeys s q) := by
  refine ⟨?_, ?_, ?_, ?_, ?_, ?_, ?_, ?_⟩
  · intro s a s1 q h
    unfold potionEffectSafe at h
    injection h with h
    subst h
    exact innerHealing_keys s a 20 none q
  · intro s a s1 q h
    unfold erikaEffectSafe at h
    injection h with h
    subst h
    exact innerHealing_keys s a 50 (some EnergyType.grass) q
  · intro s a s1 q h
    unfold kogaEffectSafe at h
    simp only at h
    split at h <;> (injection h with h; subst h; rfl)
  · intro s a s1 q h
    unfold giovanniEffectSafe at h
    split at h <;> (injection h with h; subst h; rfl)
  · intro s a s1 q h
    unfold turnEffectSafe at h
    split at h <;> (injection h with h; subst h; rfl)
  · intro s a s1 q h
    unfold sabrinaEffectSafe at h
    injection h with h
    subst h
    rfl
  · intro s a s1 q h
    unfold cyrusEffectSafe at h
    injection h with h
    subst h
    rfl
  · intro s a s1 q h
    unfold attachToolSafe at h
    split at h
    · rename_i tc htc
      cases ht : ToolId.fromTrainerCard tc with
      | none => rw [ht] at h; simp at h
      | some tool =>
        rw [ht] at h
        simp only [Option.map_some'] at h
        injection h with h
        subst h
        split <;> rfl
    · injection h with h
      subst h
      rfl

theorem detLift_keys (f : State → Action → Option State)
    (hf : ∀ s a s1 q, f s a = some s1 → playerCardKeys s1 q = playerCardKeys s q)
    (r : Rng) (s : State) (a : Action) (s' : State) (r' : Rng)
    (h : (applyCommonMutation s a).bind (fun s1 => liftEffect f r s1 a) = some (s', r'))
    (q : Nat) : playerCardKeys s' q = playerCardKeys s q := by
  cases hc : applyCommonMutation s a with
  | none => rw [hc] at h; simp at h
  | some s1 =>
    rw [hc] at h
    simp only [Option.some_bind] at h
    unfold liftEffect at h
    cases hef : f s1 a with
    | none => rw [hef] at h; simp at h
    | some s2 =>
      rw [hef] at h
      simp only [Option.map_some'] at h
      injection h with h
      have hs2 : s2 = s' := congrArg Prod.fst h
      subst hs2
      exact (hf s1 a s2 q hef).trans (common_keys s a s1 hc q)

theorem profResearch_keys (r : Rng) (s : State) (a : Action) (s' : State) (r' : Rng)
    (h : professorResearchCommit r s a = some (s', r')) (q : Nat) :
    playerCardKeys s' q = playerCardKeys s q := by
  unfold professorResearchCommit at h
  cases hc : applyCommonMutation s a with
  | none => rw [hc] at h; simp at h
  | some s1 =>
    rw [hc] at h
    simp only [Option.map_some'] at h
    cases h
    exact common_keys s a s1 hc q

theorem mistyCommit_keys (j : Nat) (r : Rng) (s : State) (a : Action) (s' : State)
    (r' : Rng) (h : mistyCommit j r s a = some (s', r')) (q : Nat) :
    playerCardKeys s' q = playerCardKeys s q := by
  unfold mistyCommit at h
  cases hc : applyCommonMutation s a with
  | none => rw [hc] at h; simp at h
  | some s1 =>
    rw [hc] at h
    simp only [Option.map_some'] at h
    refine Eq.trans ?_ (common_keys s a s1 hc q)
    split at h <;> (cases h; rfl)

theorem mythicalSlab_keys (r : Rng) (s : State) (a : Action) (s' : State) (r' : Rng)
    (h : mythicalSlabCommit r s a = some (s', r')) (q : Nat) :
    playerCardKeys s' q = playerCardKeys s q := by
  unfold mythicalSlabCommit at h
  cases hc : applyCommonMutation s a with
  | none => rw [hc] at h; simp at h
  | some s1 =>
    rw [hc] at h
    simp only [Option.map_some'] at h
    refine Eq.trans ?_ (common_keys s a s1 hc q)
    cases hdk : (s1.decks.get a.actor).cards with
    | nil =>
      rw [hdk] at h
      cases h
      rfl
    | cons c rest =>
      rw [hdk] at h
      dsimp only at h
      by_cases hps : c.is_psychic_type
      · rw [if_pos hps] at h
        cases h
        unfold playerCardKeys
        simp only [Pair2.get_modify']
        by_cases hq : (q = 0) ↔ (a.actor = 0)
        · rw [if_pos hq, if_pos hq]
          rw [Pair2.get_congr s1.decks a.actor q hq,
            Pair2.get_congr s1.hands a.actor q hq, hdk]
          simp only [keysOf_append, keysOf_cons, keysOf_singleton, keysOf_nil]
          abel
        · rw [if_neg hq, if_neg hq]
      · rw [if_neg hps] at h
        cases h
        unfold playerCardKeys
        simp only [Pair2.get_modify']
        by_cases hq : (q = 0) ↔ (a.actor = 0)
        · rw [if_pos hq]
          rw [Pair2.get_congr s1.decks a.actor q hq, hdk]
          simp only [keysOf_append, keysOf_cons, keysOf_singleton, keysOf_nil]
          abel
        · rw [if_neg hq]

theorem queue_keys (s : State) (actor : Nat) (q : Nat) :
    playerCardKeys (s.queue_draw_action actor) q = playerCardKeys s q := rfl

theorem redCard_keys (r : Rng) (s : State) (a : Action) (s' : State) (r' : Rng)
    (h : redCardCommit r s a = some (s', r')) (q : Nat) :
    playerCardKeys s' q = playerCardKeys s q := by
  unfold redCardCommit at h
  cases hc : applyCommonMutation s a with
  | none => rw [hc] at h; simp at h
  | some s1 =>
    rw [hc] at h
    simp only [Option.map_some'] at h
    cases h
    refine Eq.trans ?_ (common_keys s a s1 hc q)
    rw [queue_keys, queue_keys, queue_keys]
    unfold playerCardKeys
    simp only [Pair2.get_set']
    by_cases hq : (q = 0) ↔ ((a.actor + 1) % 2 = 0)
    · rw [if_pos hq, if_pos hq]
      rw [Pair2.get_congr s1.decks ((a.actor + 1) % 2) q hq,
        Pair2.get_congr s1.hands ((a.actor + 1) % 2) q hq]
      rw [shuffle_cards_keys]
      dsimp only
      simp only [keysOf_append, keysOf_nil]
      abel
    · rw [if_neg hq, if_neg hq]

end DeckGym
namespace DeckGym

theorem shuffleActorDeck_keys (actor : Nat) (p : State × Rng) (q : Nat) :
    playerCardKeys (shuffleActorDeck actor p).1 q = playerCardKeys p.1 q := by
  unfold shuffleActorDeck
  unfold playerCardKeys
  simp only [Pair2.get_set']
  by_cases hq : (q = 0) ↔ (actor = 0)
  · rw [if_pos hq]
    rw [Pair2.get_congr p.1.decks actor q hq]
    rw [shuffle_cards_keys]
  · rw [if_neg hq]

theorem pokeballPick_keys (actor : Nat) (s1 : State) (r : Rng) (s2 : State) (r1 : Rng)
    (h : pokeballPick actor s1 r = some (s2, r1)) (q : Nat) :
    playerCardKeys s2 q = playerCardKeys s1 q := by
  unfold pokeballPick at h
  by_cases hbe : (((s1.decks.get actor).cards.enum).filter
      (fun p => p.2.is_basic)).isEmpty
  · rw [if_pos hbe] at h
    cases h
    rfl
  · rw [if_neg hbe] at h
    cases hch : chooseList (((s1.decks.get actor).cards.enum).filter
        (fun p => p.2.is_basic)) r with
    | none => rw [hch] at h; simp at h
    | some pr =>
      obtain ⟨⟨idx, card⟩, r2⟩ := pr
      rw [hch] at h
      cases h
      have hmem := chooseList_mem _ r (idx, card) _ hch
      have hmem2 : (idx, card) ∈ (s1.decks.get actor).cards.enum :=
        (List.mem_filter.mp hmem).1
      have hget : (s1.decks.get actor).cards.get? idx = some card := by
        have := List.mem_enum_iff_get?.mp hmem2
        exact this
      unfold playerCardKeys
      simp only [Pair2.get_modify']
      by_cases hq : (q = 0) ↔ (actor = 0)
      · rw [if_pos hq, if_pos hq]
        rw [← Pair2.get_congr s1.decks actor q hq] at hget
        have hE := keysOf_eraseIdx _ idx card hget
        dsimp only
        rw [keysOf_append, keysOf_singleton, ← hE]
        abel
      · rw [if_neg hq, if_neg hq]

theorem pokeball_keys (r : Rng) (s : State) (a : Action) (s' : State) (r' : Rng)
    (h : pokeballCommit r s a = some (s', r')) (q : Nat) :
    playerCardKeys s' q = playerCardKeys s q := by
  unfold pokeballCommit at h
  cases hc : applyCommonMutation s a with
  | none => rw [hc] at h; simp at h
  | some s1 =>
    rw [hc] at h
    simp only [Option.some_bind] at h
    refine Eq.trans ?_ (common_keys s a s1 hc q)
    cases hp : pokeballPick a.actor s1 r with
    | none => rw [hp] at h; simp at h
    | some p2 =>
      rw [hp] at h
      simp only [Option.map_some'] at h
      injection h with h
      have hs' : (shuffleActorDeck a.actor p2).1 = s' := congrArg Prod.fst h
      rw [← hs']
      rw [shuffleActorDeck_keys a.actor p2 q]
      obtain ⟨s2, r2⟩ := p2
      exact pokeballPick_keys a.actor s1 r s2 r2 hp q

theorem pokeballShuffleOnly_keys (r : Rng) (s : State) (a : Action) (s' : State)
    (r' : Rng)
    (h : (applyCommonMutation s a).bind (fun s1 =>
      (fun r2 s2 (_ : Action) =>
        let sh := (s2.decks.get a.actor).shuffle false r2
        some ({ s2 with decks := s2.decks.set a.actor sh.1 }, sh.2)) r s1 a) =
        some (s', r')) (q : Nat) :
    playerCardKeys s' q = playerCardKeys s q := by
  cases hc : applyCommonMutation s a with
  | none => rw [hc] at h; simp at h
  | some s1 =>
    rw [hc] at h
    simp only [Option.some_bind] at h
    cases h
    refine Eq.trans ?_ (common_keys s a s1 hc q)
    unfold playerCardKeys
    simp only [Pair2.get_set']
    by_cases hq : (q = 0) ↔ (a.actor = 0)
    · rw [if_pos hq]
      rw [Pair2.get_congr s1.decks a.actor q hq]
      rw [shuffle_cards_keys]
    · rw [if_neg hq]

end DeckGym
namespace DeckGym

theorem singleton_get {α : Type} (x : α) (k : Nat) (m : α) (h : [x].get? k = some m) :
    m = x := by
  cases k with
  | zero => injection h with h; exact h.symm
  | succ n => simp at h

theorem trainer_commit_keys (acting : Nat) (s : State) (tc : TrainerCard)
    (pm : Probabilities × Mutations) (k : Nat) (m : Mutation) (r : Rng) (a : Action)
    (s' : State) (r' : Rng)
    (hf : forecast_trainer_action_safe acting s tc = some pm)
    (hk : pm.2.get? k = some m) (hm : m r s a = some (s', r')) (q : Nat) :
    playerCardKeys s' q = playerCardKeys s q := by
  unfold forecast_trainer_action_safe at hf
  cases hid : CardId.fromNumericId tc.numeric_id with
  | none => rw [hid] at hf; simp at hf
  | some id =>
    rw [hid] at hf
    cases id with
    | PA001Potion =>
      cases hf
      have hmx := singleton_get _ k m hk
      subst hmx
      exact detLift_keys potionEffectSafe effects_keys.1 r s a s' r' hm q
    | PA002XSpeed =>
      cases hf
      have hmx := singleton_get _ k m hk
      subst hmx
      exact detLift_keys turnEffectSafe effects_keys.2.2.2.2.1 r s a s' r' hm q
    | A1219Erika =>
      cases hf
      have hmx := singleton_get _ k m hk
      subst hmx
      exact detLift_keys erikaEffectSafe effects_keys.2.1 r s a s' r' hm q
    | A1266Erika =>
      cases hf
      have hmx := singleton_get _ k m hk
      subst hmx
      exact detLift_keys erikaEffectSafe effects_keys.2.1 r s a s' r' hm q
    | A1222Koga =>
      cases hf
      have hmx := singleton_get _ k m hk
      subst hmx
      exact detLift_keys kogaEffectSafe effects_keys.2.2.1 r s a s' r' hm q
    | A1269Koga =>
      cases hf
      have hmx := singleton_get _ k m hk
      subst hmx
      exact detLift_keys kogaEffectSafe effects_keys.2.2.1 r s a s' r' hm q
    | A1223Giovanni =>
      cases hf
      have hmx := singleton_get _ k m hk
      subst hmx
      exact detLift_keys giovanniEffectSafe effects_keys.2.2.2.1 r s a s' r' hm q
    | A1270Giovanni =>
      cases hf
      have hmx := singleton_get _ k m hk
      subst hmx
      exact detLift_keys giovanniEffectSafe effects_keys.2.2.2.1 r s a s' r' hm q
    | A1225Sabrina =>
      cases hf
      have hmx := singleton_get _ k m hk
      subst hmx
      exact detLift_keys sabrinaEffectSafe effects_keys.2.2.2.2.2.1 r s a s' r' hm q
    | A1272Sabrina =>
      cases hf
      have hmx := singleton_get _ k m hk
      subst hmx
      exact detLift_keys sabrinaEffectSafe effects_keys.2.2.2.2.2.1 r s a s' r' hm q
    | A1a068Leaf =>
      cases hf
      have hmx := singleton_get _ k m hk
      subst hmx
      exact detLift_keys turnEffectSafe effects_keys.2.2.2.2.1 r s a s' r' hm q
    | A1a082Leaf =>
      cases hf
      have hmx := singleton_get _ k m hk
      subst hmx
      exact detLift_keys turnEffectSafe effects_keys.2.2.2.2.1 r s a s' r' hm q
    | A2150Cyrus =>
      cases hf
      have hmx := singleton_get _ k m hk
      subst hmx
      exact detLift_keys cyrusEffectSafe effects_keys.2.2.2.2.2.2.1 r s a s' r' hm q
    | A2190Cyrus =>
      cases hf
      have hmx := singleton_get _ k m hk
      subst hmx
      exact detLift_keys cyrusEffectSafe effects_keys.2.2.2.2.2.2.1 r s a s' r' hm q
    | A2147GiantCape =>
      cases hf
      have hmx := singleton_get _ k m hk
      subst hmx
      exact detLift_keys attachToolSafe effects_keys.2.2.2.2.2.2.2 r s a s' r' hm q
    | PA005PokeBall =>
      cases hf
      by_cases hb : (s.decks.get acting).cards.any (fun c => c.is_basic)
      · have hpb : pokeball_outcomes_safe acting s = ([1], [pokeballCommit]) := by
          unfold pokeball_outcomes_safe
          rw [hb]
          rfl
        rw [hpb] at hk
        have hmx := singleton_get _ k m hk
        subst hmx
        exact pokeball_keys r s a s' r' hm q
      · have hb2 : (s.decks.get acting).cards.any (fun c => c.is_basic) = false := by
          exact Bool.not_eq_true _ ▸ (Bool.of_not_eq_true hb)
        have hpb : pokeball_outcomes_safe acting s =
            deterministicSafe (fun r1 s1 a1 =>
              let sh := (s1.decks.get a1.actor).shuffle false r1
              some ({ s1 with decks := s1.decks.set a1.actor sh.1 }, sh.2)) := by
          unfold pokeball_outcomes_safe
          rw [hb2]
          rfl
        rw [hpb] at hk
        have hmx := singleton_get _ k m hk
        subst hmx
        exact pokeballShuffleOnly_keys r s a s' r' hm q
    | PA006RedCard =>
      cases hf
      have hmx := singleton_get _ k m hk
      subst hmx
      exact redCard_keys r s a s' r' hm q
    | PA007ProfessorsResearch =>
      cases hf
      have hmx := singleton_get _ k m hk
      subst hmx
      exact profResearch_keys r s a s' r' hm q
    | A1220Misty =>
      cases hf
      have hk2 : ((List.range 6).map mistyCommit).get? k = some m := hk
      rw [List.get?_map] at hk2
      cases hr : (List.range 6).get? k with
      | none => rw [hr] at hk2; simp at hk2
      | some j =>
        rw [hr] at hk2
        simp only [Option.map_some'] at hk2
        injection hk2 with hk2
        subst hk2
        exact mistyCommit_keys j r s a s' r' hm q
    | A1267Misty =>
      cases hf
      have hk2 : ((List.range 6).map mistyCommit).get? k = some m := hk
      rw [List.get?_map] at hk2
      cases hr : (List.range 6).get? k with
      | none => rw [hr] at hk2; simp at hk2
      | some j =>
        rw [hr] at hk2
        simp only [Option.map_some'] at hk2
        injection hk2 with hk2
        subst hk2
        exact mistyCommit_keys j r s a s' r' hm q
    | A1a065MythicalSlab =>
      cases hf
      have hmx := singleton_get _ k m hk
      subst hmx
      exact mythicalSlab_keys r s a s' r' hm q

end DeckGym
namespace DeckGym

theorem step_conserves (s s' : State) (h : Step s s') (q : Nat) :
    playerCardKeys s' q = playerCardKeys s q := by
  cases h with
  | draw p => exact draw_keys s p q
  | discard p c sx hd => exact discard_keys s p c s' hd q
  | det a sx hleg hd => exact det_keys s a s' hleg hd q
  | advance tr sx trx hd => exact advance_keys s tr s' trx hd q
  | trainerCommit acting tc pm k m r a sx rx hf hk hm =>
    exact trainer_commit_keys acting s tc pm k m r a s' rx hf hk hm q

theorem reachable_conserves (s s' : State) (h : Reachable s s') (q : Nat) :
    playerCardKeys s' q = playerCardKeys s q := by
  induction h with
  | refl => rfl
  | tail t u2 hr hstep ih => exact (step_conserves t u2 hstep q).trans ih

theorem fold_draws_keys (n : Nat) (st : State) (p : Nat) :
    playerCardKeys ((List.range n).foldl
      (fun s (_ : Nat) => (s.maybe_draw_card 0).maybe_draw_card 1) st) p =
    playerCardKeys st p := by
  induction n generalizing st with
  | zero => rfl
  | succ nn ih =>
    rw [List.range_succ]
    simp only [List.foldl_append, List.foldl_cons, List.foldl_nil]
    rw [draw_keys _ 1 p, draw_keys _ 0 p]
    exact ih st

theorem initialize_keys (da db : Deck) (r : Rng) (p : Nat) :
    playerCardKeys ( State.initialize da db r) p =
    keysOf ((Pair2.mk da db).get p).cards := by
  have h1 : playerCardKeys ( State.initialize da db r) p =
      playerCardKeys ((List.range 5).foldl
        (fun s (_ : Nat) => (s.maybe_draw_card 0).maybe_draw_card 1)
        ({ State.new da db with decks :=
          ⟨((State.new da db).decks.fst.shuffle true r).1,
           ((State.new da db).decks.snd.shuffle true
             ((State.new da db).decks.fst.shuffle true r).2).1⟩ })) p := rfl
  rw [h1, fold_draws_keys]
  unfold playerCardKeys State.new
  unfold Pair2.get
  by_cases hp : p = 0
  · simp only [hp, if_true]
    rw [shuffle_cards_keys]
    simp [keysOf_nil, rowKeys, slotKeys, keysOf]
  · simp only [hp, if_false]
    rw [shuffle_cards_keys]
    simp [keysOf_nil, rowKeys, slotKeys, keysOf]

end DeckGym
namespace DeckGym

/-- C1: the spec claims every stochastic step of the engine draws only
from the supplied per-match RNG, and in particular that `generate_energy`
is a deterministic function of the state and the supplied RNG.  The code
(`state.rs` lines 129-140 and `optimized_state.rs` lines 132-146) instead
samples from `rand::thread_rng()` — ambient OS randomness the per-match
RNG never sees.  This theorem evaluates the embedded `generate_energy` at
a state whose deck declares two energy types: two different ambient
thread-RNG streams produce two different `current_energy` results from
the same state, so the function is not determined by the state and the
supplied RNG, refuting the claim (the supplied RNG is not even consulted). -/
theorem generate_energy_ignores_match_rng :
    (twoEnergyState.generate_energy ⟨[0]⟩).map (fun p => p.1.current_energy) =
      some (some EnergyType.grass) ∧
    (twoEnergyState.generate_energy ⟨[1]⟩).map (fun p => p.1.current_energy) =
      some (some EnergyType.fire) ∧
    (twoEnergyState.generate_energy ⟨[0]⟩).map (fun p => p.1) ≠
      (twoEnergyState.generate_energy ⟨[1]⟩).map (fun p => p.1) := by
  refine ⟨rfl, rfl, ?_⟩
  decide

/-- C2: for every state, the forecast of a `DrawCard` action and of a
`Play` action for Poke Ball, Red Card, Professors Research and Mythical
Slab returns exactly one outcome: probability vector `[1.0]` and one lazy
mutation; the random element is resolved only inside that mutation at
commit time (structurally, `forecastAction` takes no RNG at all). -/
theorem forecast_hidden_info_single_outcome (s : State) (a : Action)
    (h : a.action = SimpleAction.drawCard ∨
      ∃ tc, a.action = SimpleAction.play tc ∧
        (CardId.fromNumericId tc.numeric_id = some CardId.PA005PokeBall ∨
         CardId.fromNumericId tc.numeric_id = some CardId.PA006RedCard ∨
         CardId.fromNumericId tc.numeric_id = some CardId.PA007ProfessorsResearch ∨
         CardId.fromNumericId tc.numeric_id = some CardId.A1a065MythicalSlab)) :
    ∃ m : Mutation, forecastAction s a = some ([1], [m]) := by
  obtain ⟨actor, act, stk⟩ := a
  rcases h with h | ⟨tc, h, hid⟩
  · dsimp only at h
    subst h
    exact ⟨_, rfl⟩
  · dsimp only at h
    subst h
    show ∃ m, forecast_trainer_action_safe actor s tc = some ([1], [m])
    unfold forecast_trainer_action_safe
    rcases hid with hid | hid | hid | hid <;> rw [hid]
    · unfold pokeball_outcomes_safe
      cases hb : (s.decks.get actor).cards.any (fun c => c.is_basic) with
      | false => exact ⟨_, rfl⟩
      | true => exact ⟨_, rfl⟩
    · exact ⟨_, rfl⟩
    · exact ⟨_, rfl⟩
    · exact ⟨_, rfl⟩

/-- Witness for C2: the theorem applied to a concrete `DrawCard` action
and to a concrete `Play(Poke Ball)` action. -/
theorem forecast_hidden_info_single_outcome_witness :
    (∃ m : Mutation, forecastAction threeHandState
      ⟨0, SimpleAction.drawCard, false⟩ = some ([1], [m])) ∧
    (∃ m : Mutation, forecastAction threeHandState
      ⟨0, SimpleAction.play pokeballTrainerCard, false⟩ = some ([1], [m])) :=
  ⟨forecast_hidden_info_single_outcome _ _ (Or.inl rfl),
   forecast_hidden_info_single_outcome _ _
     (Or.inr ⟨pokeballTrainerCard, rfl, Or.inl (by decide)⟩)⟩

/-- C3: the spec claims every forecast probability vector sums to
1.0 ± 1e-9, and that Misty folds the remaining mass into the last of its
six buckets.  The code writes `[0.5, 0.25, 0.125, 0.0625, 0.03125,
0.015625]` (all dyadic, summed exactly by f64): the last bucket holds
1/64 instead of the folded 1/32, so the mass is 63/64 — short of 1 by
0.015625, far beyond the 1e-9 tolerance.  The vector lengths do agree. -/
theorem misty_probabilities_mass_deficit :
    misty_outcomes_safe.1.sum = 63 / 64 ∧
    1 - misty_outcomes_safe.1.sum = 1 / 64 ∧
    (1 : ℚ) / 1000000000 < 1 - misty_outcomes_safe.1.sum ∧
    misty_outcomes_safe.1.length = misty_outcomes_safe.2.length := by
  have hsum : misty_outcomes_safe.1.sum = 63 / 64 := by
    show ([1/2, 1/4, 1/8, 1/16, 1/32, 1/64] : List ℚ).sum = 63 / 64
    norm_num [List.sum_cons, List.sum_nil]
  refine ⟨hsum, ?_, ?_, ?_⟩
  · rw [hsum]; norm_num
  · rw [hsum]; norm_num
  · show (6 : Nat) = ((List.range 6).map mistyCommit).length
    simp

/-- C7 counterexample: `remove_card_from_hand` uses `swap_remove`, which
moves the LAST card of the hand into the removed position.  Removing the
first card of the hand `[T1, T2, T3]` yields `[T3, T2]`, not the
order-preserving `[T2, T3]`: the relative order of the remaining cards is
not preserved. -/
theorem remove_card_breaks_order :
    (threeHandState.remove_card_from_hand 0 (Card.trainer tCard1)).map
      (fun s => s.hands.fst) = some [Card.trainer tCard3, Card.trainer tCard2] ∧
    (threeHandState.remove_card_from_hand 0 (Card.trainer tCard1)).map
      (fun s => s.hands.fst) ≠ some [Card.trainer tCard2, Card.trainer tCard3] := by
  exact ⟨rfl, by decide⟩

/-- C7 amended: hands are ordered lists, and removal is deterministic but
uses `swap_remove`: it removes the first card equal (by card identity) to
the argument and moves the last card into its place, so the multiset of
the remaining hand is exactly the old hand minus the removed card, while
the relative order is preserved only when the removed card is last. -/
theorem remove_card_from_hand_multiset (s : State) (p : Nat) (c : Card) (s' : State)
    (h : s.remove_card_from_hand p c = some s') :
    ∃ i x, (s.hands.get p).get? i = some x ∧ Card.key x = Card.key c ∧
      s'.hands.get p = swapRemove (s.hands.get p) i ∧
      ((s'.hands.get p : List Card) : Multiset Card) + {x} =
        (↑(s.hands.get p) : Multiset Card) := by
  obtain ⟨i, x, hx, hk, hs⟩ := remove_card_spec s p c s' h
  have hget : s'.hands.get p = swapRemove (s.hands.get p) i := by
    subst hs
    show (s.hands.modify p (fun hd => swapRemove hd i)).get p = _
    rw [Pair2.get_modify', if_pos Iff.rfl]
  refine ⟨i, x, hx, hk, hget, ?_⟩
  rw [hget]
  exact coe_swapRemove _ i x hx

/-- Witness for C7: the amended multiset law applied at the concrete
three-card hand. -/
theorem remove_card_from_hand_multiset_witness :
    ∃ i x, (threeHandState.hands.get 0).get? i = some x ∧
      Card.key x = Card.key (Card.trainer tCard1) ∧
      ((threeHandState.remove_card_from_hand 0 (Card.trainer tCard1)).getD
        threeHandState).hands.get 0 = swapRemove (threeHandState.hands.get 0) i ∧
      ↑((((threeHandState.remove_card_from_hand 0 (Card.trainer tCard1)).getD
        threeHandState).hands.get 0 : List Card)) + {x} =
        (↑(threeHandState.hands.get 0) : Multiset Card) :=
  remove_card_from_hand_multiset threeHandState 0 (Card.trainer tCard1) _ rfl

/-- C8: committing `Heal` adds the amount to `remaining_hp` capped at
`total_hp` (healing a Pokemon whose damage taken is below the amount
leaves it at exactly `total_hp`), and changes nothing but that slot. -/
theorem apply_healing_caps (s : State) (p pos amount : Nat) (pc : PlayedCard)
    (h : (s.in_play_pokemon.get p).get? pos = some (some pc)) :
    applyHealing p s pos amount = some { s with in_play_pokemon :=
      (s.in_play_pokemon.modify p (fun row => row.set pos (some { pc with
        remaining_hp := min (pc.remaining_hp + amount) pc.total_hp }))) } ∧
    min (pc.remaining_hp + amount) pc.total_hp ≤ pc.total_hp ∧
    (pc.total_hp ≤ pc.remaining_hp + amount →
      min (pc.remaining_hp + amount) pc.total_hp = pc.total_hp) := by
  refine ⟨?_, Nat.min_le_right _ _, fun hle => Nat.min_eq_right hle⟩
  unfold applyHealing PlayedCard.heal
  rw [h]

/-- Witness for C8: the spec scenario — a 70-HP ally with 10 damage taken
healed by 20 ends at exactly 70. -/
theorem apply_healing_caps_witness :
    applyHealing 0 healState 0 20 = some { healState with in_play_pokemon :=
      (healState.in_play_pokemon.modify 0 (fun row => row.set 0 (some { allyDamaged with
        remaining_hp := min (allyDamaged.remaining_hp + 20) allyDamaged.total_hp }))) } ∧
    min (allyDamaged.remaining_hp + 20) allyDamaged.total_hp ≤ allyDamaged.total_hp ∧
    (allyDamaged.total_hp ≤ allyDamaged.remaining_hp + 20 →
      min (allyDamaged.remaining_hp + 20) allyDamaged.total_hp = allyDamaged.total_hp) :=
  apply_healing_caps healState 0 0 20 allyDamaged rfl

end DeckGym
namespace DeckGym

/-- C4: card conservation.  Every engine step — drawing, discarding,
committing a deterministic action (place, evolve, retreat, attack damage,
knockouts, healing, tool attachment, abilities), advancing the turn, or
committing any forecast trainer mutation — preserves, for each player,
the multiset of card keys spread over that player's hand, deck, discard
pile and in-play slots (each `PlayedCard` counting its card and its
`cards_behind`); hence in every reachable state this multiset equals the
player's starting deck list. -/
theorem card_conservation (da db : Deck) (r : Rng) (s : State) (p : Nat)
    (h : Reachable ( State.initialize da db r) s) :
    playerCardKeys s p = keysOf ((Pair2.mk da db).get p).cards :=
  (reachable_conserves _ _ h p).trans (initialize_keys da db r p)

/-- Witness for C4: conservation for player 0 after initializing the
sample decks and taking one draw step. -/
theorem card_conservation_witness :
    playerCardKeys (( State.initialize sampleDeckA sampleDeckB ⟨[3, 1, 4]⟩).maybe_draw_card 0) 0 =
      keysOf ((Pair2.mk sampleDeckA sampleDeckB).get 0).cards :=
  card_conservation sampleDeckA sampleDeckB ⟨[3, 1, 4]⟩ _ 0
    (Reachable.tail _ _ _ (Reachable.refl _) (Step.draw _ 0))

/-- C5: committing `Evolve(card, pos)` on a state holding a Pokemon in
the slot and the stage-1-or-higher evolution card in the acting player's
hand replaces the slot with a new `PlayedCard` whose `remaining_hp` is
the new total HP minus the damage taken, inheriting the attached energy,
appending the evolvee to `cards_behind`, clearing all status flags, with
`ability_used = false` and `played_this_turn = true`, and removes the
card from the hand (via `swap_remove` at the found index). -/
theorem apply_evolve_spec (s : State) (p pos : Nat) (pc : PokemonCard)
    (old : PlayedCard) (i : Nat)
    (hslot : (s.in_play_pokemon.get p).get? pos = some (some old))
    (hstage : pc.stage ≠ 0)
    (hhp : old.remaining_hp ≤ old.total_hp)
    (hdmg : old.total_hp - old.remaining_hp ≤ pc.hp)
    (hfind : position (fun x => cardEq x (Card.pokemon pc)) (s.hands.get p) = some i) :
    applyEvolve p s (Card.pokemon pc) pos = some
      { s with
        in_play_pokemon := (s.in_play_pokemon.modify p (fun row => row.set pos (some
          { card := Card.pokemon pc,
            remaining_hp := pc.hp - (old.total_hp - old.remaining_hp),
            total_hp := pc.hp,
            attached_energy := old.attached_energy,
            attached_tool := none, played_this_turn := true,
            ability_used := false, poisoned := false, paralyzed := false,
            asleep := false,
            cards_behind := old.cards_behind ++ [old.card] }))),
        hands := (s.hands.modify p (fun hd => swapRemove hd i)) } := by
  unfold applyEvolve
  dsimp only [toPlayableCard]
  rw [Option.some_bind]
  rw [hslot]
  dsimp only
  rw [if_neg hstage, if_neg (Nat.not_lt.mpr hhp), if_neg (Nat.not_lt.mpr hdmg)]
  unfold State.remove_card_from_hand
  dsimp only
  rw [hfind]

/-- Witness for C5: the spec scenario — Mankey at 20/50 with one
Colorless evolves to Primeape (90 HP): the new active has
`remaining_hp = 90 - 30`, the Colorless attached, `cards_behind`
recording the Mankey card, status cleared. -/
theorem apply_evolve_spec_witness :
    applyEvolve 0 evolveState (Card.pokemon primeapeCard) 0 = some
      { evolveState with
        in_play_pokemon := (evolveState.in_play_pokemon.modify 0 (fun row => row.set 0 (some
          { card := Card.pokemon primeapeCard,
            remaining_hp := primeapeCard.hp - (mankeyDamaged.total_hp - mankeyDamaged.remaining_hp),
            total_hp := primeapeCard.hp,
            attached_energy := mankeyDamaged.attached_energy,
            attached_tool := none, played_this_turn := true,
            ability_used := false, poisoned := false, paralyzed := false,
            asleep := false,
            cards_behind := mankeyDamaged.cards_behind ++ [mankeyDamaged.card] }))),
        hands := (evolveState.hands.modify 0 (fun hd => swapRemove hd 0)) } :=
  apply_evolve_spec evolveState 0 0 primeapeCard mankeyDamaged 0
    rfl (by decide) (by decide) (by decide) (by decide)

/-- C6: committing a paid `Retreat(idx)` on a state whose active Pokemon
has at least retreat-cost-many energies attached and whose bench slot
`idx` is occupied succeeds: the bench Pokemon becomes the active, the old
active lands in slot `idx` with exactly retreat-cost-many energies
truncated from the back and with the poisoned, paralyzed and asleep flags
cleared, every other slot and every other state field is unchanged, and
`has_retreated` is set. -/
theorem apply_retreat_spec (s : State) (p idx : Nat) (active bench : PlayedCard)
    (h0 : (s.in_play_pokemon.get p).get? 0 = some (some active))
    (hb : (s.in_play_pokemon.get p).get? idx = some (some bench))
    (hidx : idx ≠ 0)
    (hcost : (getRetreatCost s active).length ≤ active.attached_energy.length) :
    ∃ s1, applyRetreat p s idx false = some s1 ∧
      (s1.in_play_pokemon.get p).get? 0 = some (some bench) ∧
      (s1.in_play_pokemon.get p).get? idx = some (some { active with
        attached_energy := (active.attached_energy.take
          (active.attached_energy.length - (getRetreatCost s active).length)),
        poisoned := false, paralyzed := false, asleep := false }) ∧
      (∀ j, j ≠ 0 → j ≠ idx →
        (s1.in_play_pokemon.get p).get? j = (s.in_play_pokemon.get p).get? j) ∧
      (active.attached_energy.take
          (active.attached_energy.length - (getRetreatCost s active).length)).length =
        active.attached_energy.length - (getRetreatCost s active).length ∧
      s1.has_retreated = true ∧
      (∀ q, ¬ ((q = 0) ↔ (p = 0)) → s1.in_play_pokemon.get q = s.in_play_pokemon.get q) ∧
      s1.hands = s.hands ∧ s1.decks = s.decks ∧ s1.discard_piles = s.discard_piles ∧
      s1.points = s.points ∧ s1.current_player = s.current_player ∧
      s1.winner = s.winner := by
  obtain ⟨hlen0, -⟩ := List.get?_eq_some.mp h0
  obtain ⟨hlenb, -⟩ := List.get?_eq_some.mp hb
  have hpay : retreatPayPhase p s false = some { s with in_play_pokemon :=
      (s.in_play_pokemon.modify p (fun r0 => r0.set 0 (some { active with
        attached_energy := (active.attached_energy.take
          (active.attached_energy.length - (getRetreatCost s active).length)) }))) } := by
    unfold retreatPayPhase
    rw [if_neg (by decide : ¬ (false = true))]
    rw [h0]
    dsimp only
    rw [if_neg (Nat.not_lt.mpr hcost)]
  have hsw : listSwap ((s.in_play_pokemon.get p).set 0 (some { active with
        attached_energy := (active.attached_energy.take
          (active.attached_energy.length - (getRetreatCost s active).length)) })) 0 idx =
      some ((((s.in_play_pokemon.get p).set 0 (some { active with
        attached_energy := (active.attached_energy.take
          (active.attached_energy.length - (getRetreatCost s active).length)) })).set 0
          (some bench)).set idx (some { active with
        attached_energy := (active.attached_energy.take
          (active.attached_energy.length - (getRetreatCost s active).length)) })) := by
    unfold listSwap
    rw [List.get?_set_eq_of_lt _ hlen0, List.get?_set_ne _ _ (Ne.symm hidx), hb]
  have hr1idx : ((((s.in_play_pokemon.get p).set 0 (some { active with
        attached_energy := (active.attached_energy.take
          (active.attached_energy.length - (getRetreatCost s active).length)) })).set 0
          (some bench)).set idx (some { active with
        attached_energy := (active.attached_energy.take
          (active.attached_energy.length - (getRetreatCost s active).length)) })).get? idx =
      some (some { active with
        attached_energy := (active.attached_energy.take
          (active.attached_energy.length - (getRetreatCost s active).length)) }) :=
    List.get?_set_eq_of_lt _ (by simp only [List.length_set]; exact hlenb)
  refine ⟨{ s with
      in_play_pokemon := ((s.in_play_pokemon.modify p (fun r0 => r0.set 0 (some { active with
        attached_energy := (active.attached_energy.take
          (active.attached_energy.length - (getRetreatCost s active).length)) }))).set p
        (((((s.in_play_pokemon.get p).set 0 (some { active with
          attached_energy := (active.attached_energy.take
            (active.attached_energy.length - (getRetreatCost s active).length)) })).set 0
            (some bench)).set idx (some { active with
          attached_energy := (active.attached_energy.take
            (active.attached_energy.length - (getRetreatCost s active).length)) })).set idx
          (some { active with
            attached_energy := (active.attached_energy.take
              (active.attached_energy.length - (getRetreatCost s active).length)),
            poisoned := false, paralyzed := false, asleep := false }))),
      has_retreated := true }, ?_, ?_, ?_, ?_, ?_, ?_, ?_, ?_, ?_, ?_, ?_, ?_, ?_⟩
  · unfold applyRetreat
    rw [hpay, Option.some_bind]
    unfold retreatSwapPhase
    dsimp only
    rw [Pair2.get_modify', if_pos Iff.rfl]
    rw [hsw]
    dsimp only
    rw [hr1idx]
  · rw [Pair2.get_set', if_pos Iff.rfl]
    rw [List.get?_set_ne _ _ hidx, List.get?_set_ne _ _ hidx]
    exact List.get?_set_eq_of_lt _ (by simp only [List.length_set]; exact hlen0)
  · rw [Pair2.get_set', if_pos Iff.rfl]
    exact List.get?_set_eq_of_lt _ (by simp only [List.length_set]; exact hlenb)
  · intro j hj0 hjidx
    rw [Pair2.get_set', if_pos Iff.rfl]
    rw [List.get?_set_ne _ _ (fun h => hjidx h.symm),
        List.get?_set_ne _ _ (fun h => hjidx h.symm),
        List.get?_set_ne _ _ (fun h => hj0 h.symm),
        List.get?_set_ne _ _ (fun h => hj0 h.symm)]
  · rw [List.length_take]
    exact Nat.min_eq_left (Nat.sub_le _ _)
  · rfl
  · intro q hq
    rw [Pair2.get_set', if_neg hq, Pair2.get_modify', if_neg hq]
  · rfl
  · rfl
  · rfl
  · rfl
  · rfl
  · rfl

/-- Witness for C6: the spec retreat scenario — poisoned Mankey with two
Fighting energies retreats to bench slot 1 holding a fresh Primeape. -/
theorem apply_retreat_spec_witness :
    ∃ s1, applyRetreat 0 retreatState 1 false = some s1 ∧
      (s1.in_play_pokemon.get 0).get? 0 = some (some primeapeBench) ∧
      (s1.in_play_pokemon.get 0).get? 1 = some (some { mankeyActive with
        attached_energy := (mankeyActive.attached_energy.take
          (mankeyActive.attached_energy.length -
            (getRetreatCost retreatState mankeyActive).length)),
        poisoned := false, paralyzed := false, asleep := false }) ∧
      (∀ j, j ≠ 0 → j ≠ 1 →
        (s1.in_play_pokemon.get 0).get? j = (retreatState.in_play_pokemon.get 0).get? j) ∧
      (mankeyActive.attached_energy.take
          (mankeyActive.attached_energy.length -
            (getRetreatCost retreatState mankeyActive).length)).length =
        mankeyActive.attached_energy.length -
          (getRetreatCost retreatState mankeyActive).length ∧
      s1.has_retreated = true ∧
      (∀ q, ¬ ((q = 0) ↔ ((0 : Nat) = 0)) →
        s1.in_play_pokemon.get q = retreatState.in_play_pokemon.get q) ∧
      s1.hands = retreatState.hands ∧ s1.decks = retreatState.decks ∧
      s1.discard_piles = retreatState.discard_piles ∧
      s1.points = retreatState.points ∧
      s1.current_player = retreatState.current_player ∧
      s1.winner = retreatState.winner :=
  apply_retreat_spec retreatState 0 1 mankeyActive primeapeBench
    rfl rfl (by decide) (by decide)

end DeckGym
namespace DeckGym

/-- C10: `apply_retreat_safe` validates before mutating, so on every
error path the returned state is the input state unchanged; and in the
paid-retreat case with too few attached energies the error is precisely
`MissingEnergy` carrying the names of the required and available
energies. -/
theorem apply_retreat_safe_atomic :
    (∀ (p : Nat) (s : State) (idx : Nat) (free : Bool) (e : GameError),
      (applyRetreatSafe p s idx free).1 = Except.error e →
      (applyRetreatSafe p s idx free).2 = s) ∧
    (∀ (p : Nat) (s : State) (idx : Nat) (active bench : PlayedCard),
      p < 2 → idx ≠ 0 → idx < 4 →
      (s.in_play_pokemon.get p).get? idx = some (some bench) →
      (s.in_play_pokemon.get p).get? 0 = some (some active) →
      active.attached_energy.length < (getRetreatCost s active).length →
      applyRetreatSafe p s idx false =
        (Except.error (GameError.missingEnergy
          ((getRetreatCost s active).map energyName)
          (active.attached_energy.map energyName)), s)) := by
  constructor
  · intro p s idx free e h
    have key : (applyRetreatSafe p s idx free).1 = Except.ok () ∨
        (applyRetreatSafe p s idx free).2 = s := by
      unfold applyRetreatSafe
      split
      · exact Or.inr rfl
      split
      · exact Or.inr rfl
      split
      · exact Or.inr rfl
      dsimp only
      split
      · exact Or.inr rfl
      · exact Or.inl rfl
    rcases key with hok | hs
    · rw [h] at hok
      exact Except.noConfusion hok
    · exact hs
  · intro p s idx active bench hp hidx0 hidx4 hbench hactive hlen
    have hg : getPokemonSafe s p idx = Except.ok bench := by
      unfold getPokemonSafe
      rw [if_neg (Nat.not_le.mpr hp), if_neg (Nat.not_le.mpr hidx4), hbench]
    have ha : getActiveSafe s p = Except.ok active := by
      unfold getActiveSafe
      rw [if_neg (Nat.not_le.mpr hp), hactive]
    unfold applyRetreatSafe
    rw [if_neg (Nat.not_le.mpr hp),
        if_neg (not_or.mpr ⟨Nat.not_le.mpr hidx4, hidx0⟩), hg]
    dsimp only
    rw [if_neg (by decide : ¬ (false = true)), ha]
    dsimp only
    rw [if_pos hlen]

/-- Witness for C10: a bad player index leaves the state untouched, and
the missing-energy scenario (Mankey with one energy, retreat cost two)
returns exactly the `MissingEnergy` error with the state untouched. -/
theorem apply_retreat_safe_atomic_witness :
    (applyRetreatSafe 2 poorRetreatState 1 false).2 = poorRetreatState ∧
    applyRetreatSafe 0 poorRetreatState 1 false =
      (Except.error (GameError.missingEnergy
        ((getRetreatCost poorRetreatState mankeyOneEnergy).map energyName)
        (mankeyOneEnergy.attached_energy.map energyName)), poorRetreatState) :=
  ⟨apply_retreat_safe_atomic.1 2 poorRetreatState 1 false (GameError.invalidPlayer 2) rfl,
   apply_retreat_safe_atomic.2 0 poorRetreatState 1 mankeyOneEnergy primeapeBench
     (by decide) (by decide) (by decide) rfl rfl (by decide)⟩

end DeckGym
namespace DeckGym

/-- `new` commutes with the field-identity view. -/
theorem opt_new_toState (da db : Deck) :
    (OptimizedState.new da db).toState = State.new da db := rfl

/-- `maybe_draw_card` commutes with the field-identity view. -/
theorem opt_maybe_draw_toState (os : OptimizedState) (p : Nat) :
    (os.maybe_draw_card p).toState = os.toState.maybe_draw_card p := by
  unfold OptimizedState.maybe_draw_card State.maybe_draw_card
  dsimp only [OptimizedState.toState]
  cases hd : (os.decks.get p).draw with
  | none => rfl
  | some pr => cases pr with | mk c d => rfl

/-- `remove_card_from_hand` commutes with the field-identity view. -/
theorem opt_remove_toState (os : OptimizedState) (p : Nat) (c : Card) :
    (os.remove_card_from_hand p c).map OptimizedState.toState =
      os.toState.remove_card_from_hand p c := by
  unfold OptimizedState.remove_card_from_hand State.remove_card_from_hand
  dsimp only [OptimizedState.toState]
  cases hp : position (fun x => cardEq x c) (os.hands.get p) with
  | none => rfl
  | some i => rfl

/-- `discard_card_from_hand` commutes with the field-identity view. -/
theorem opt_discard_toState (os : OptimizedState) (p : Nat) (c : Card) :
    (os.discard_card_from_hand p c).map OptimizedState.toState =
      os.toState.discard_card_from_hand p c := by
  unfold OptimizedState.discard_card_from_hand State.discard_card_from_hand
  rw [← opt_remove_toState os p c]
  cases os.remove_card_from_hand p c with
  | none => rfl
  | some s1 => rfl

/-- `reset_turn_states` commutes with the field-identity view. -/
theorem opt_reset_toState (os : OptimizedState) :
    os.reset_turn_states.toState = os.toState.reset_turn_states := rfl

/-- `add_turn_effect` commutes with the field-identity view. -/
theorem opt_add_effect_toState (os : OptimizedState) (c : Card) (d : Nat) :
    (os.add_turn_effect c d).toState = os.toState.add_turn_effect c d := rfl

/-- `get_current_turn_effects` commutes with the field-identity view. -/
theorem opt_effects_toState (os : OptimizedState) :
    os.get_current_turn_effects = os.toState.get_current_turn_effects := rfl

/-- `queue_draw_action` commutes with the field-identity view. -/
theorem opt_queue_toState (os : OptimizedState) (a : Nat) :
    (os.queue_draw_action a).toState = os.toState.queue_draw_action a := rfl

/-- `is_game_over` commutes with the field-identity view. -/
theorem opt_is_over_toState (os : OptimizedState) :
    os.is_game_over = os.toState.is_game_over := rfl

/-- `generate_energy` commutes with the field-identity view on the state
component.  (On the ambient thread-RNG component the two versions differ
in the single-energy case: the `State` version falls through and samples,
the optimized version returns early; the produced states coincide.) -/
theorem opt_gen_energy_toState (os : OptimizedState) (tr : Rng) :
    (os.generate_energy tr).map (fun p => p.1.toState) =
      (os.toState.generate_energy tr).map (fun p => p.1) := by
  unfold OptimizedState.generate_energy State.generate_energy
  dsimp only [OptimizedState.toState]
  cases hes : (os.decks.get os.current_player).energy_types with
  | nil => rfl
  | cons e rest =>
    cases rest with
    | nil =>
      have hnext : (tr.next 1).1 = 0 := by
        unfold Rng.next
        cases tr.seq with
        | nil => rfl
        | cons x xs => exact Nat.mod_one x
      have hch : chooseList [e] tr = some (e, (tr.next 1).2) := by
        unfold chooseList
        rw [if_neg (fun h : ([e].isEmpty = true) => Bool.noConfusion h)]
        dsimp only
        rw [show ([e] : List EnergyType).length = 1 from rfl, hnext]
        rfl
      rw [hch]
      rfl
    | cons e2 rest2 =>
      cases hch : chooseList (e :: e2 :: rest2) tr with
      | none => rfl
      | some pr => cases pr with | mk ev r2 => rfl

/-- `generate_energy` commutation, stated against any equal plain state. -/
theorem opt_gen_energy_toState_eq (os : OptimizedState) (ss : State) (tr : Rng)
    (h : os.toState = ss) :
    (os.generate_energy tr).map (fun p => p.1.toState) =
      (ss.generate_energy tr).map (fun p => p.1) := by
  subst h
  exact opt_gen_energy_toState os tr

/-- `advance_turn` commutes with the field-identity view on the state
component. -/
theorem opt_advance_toState (os : OptimizedState) (tr : Rng) :
    (os.advance_turn tr).map (fun p => p.1.toState) =
      (os.toState.advance_turn tr).map (fun p => p.1) := by
  unfold OptimizedState.advance_turn State.advance_turn
  dsimp only
  exact opt_gen_energy_toState_eq _ _ tr
    (by rw [opt_queue_toState, opt_reset_toState]; rfl)

/-- The five-draw fold of `initialize` commutes with the view. -/
theorem opt_fold_draw_toState (l : List Nat) (os : OptimizedState) :
    (l.foldl (fun s (_ : Nat) => (s.maybe_draw_card 0).maybe_draw_card 1) os).toState =
      l.foldl (fun s (_ : Nat) => (s.maybe_draw_card 0).maybe_draw_card 1) os.toState := by
  induction l generalizing os with
  | nil => rfl
  | cons x xs ih =>
    simp only [List.foldl_cons]
    rw [ih, opt_maybe_draw_toState, opt_maybe_draw_toState]

/-- `initialize` commutes with the field-identity view. -/
theorem opt_initialize_toState (da db : Deck) (r : Rng) :
    ( OptimizedState.initialize da db r).toState = State.initialize da db r := by
  unfold OptimizedState.initialize State.initialize
  dsimp only
  rw [show (∀ (os : OptimizedState) (c : Nat),
      ({ os with current_player := c } : OptimizedState).toState =
        { os.toState with current_player := c }) from fun _ _ => rfl]
  rw [opt_fold_draw_toState]
  rfl

end DeckGym
namespace DeckGym

/-- C9: `OptimizedState` refines `State`.  Under the field-identity view
`OptimizedState.toState`, each of the eleven shared operations — `new`,
`initialize`, `maybe_draw_card`, `remove_card_from_hand`,
`discard_card_from_hand`, `reset_turn_states`, `add_turn_effect`,
`get_current_turn_effects`, `queue_draw_action`, `advance_turn`,
`is_game_over` — commutes: running the optimized version and viewing the
result equals viewing the state and running the plain version, so the
copy-on-write wrappers change no observable field.  (`advance_turn` is
compared on the produced state fields; its trailing energy generation
consumes the ambient thread RNG differently in the single-declared-energy
case but produces identical fields.) -/
theorem optimized_state_refines_state :
    (∀ da db, (OptimizedState.new da db).toState = State.new da db) ∧
    (∀ da db r, ( OptimizedState.initialize da db r).toState = State.initialize da db r) ∧
    (∀ (os : OptimizedState) p, (os.maybe_draw_card p).toState =
      os.toState.maybe_draw_card p) ∧
    (∀ (os : OptimizedState) p c, (os.remove_card_from_hand p c).map OptimizedState.toState =
      os.toState.remove_card_from_hand p c) ∧
    (∀ (os : OptimizedState) p c, (os.discard_card_from_hand p c).map OptimizedState.toState =
      os.toState.discard_card_from_hand p c) ∧
    (∀ (os : OptimizedState), os.reset_turn_states.toState =
      os.toState.reset_turn_states) ∧
    (∀ (os : OptimizedState) c d, (os.add_turn_effect c d).toState =
      os.toState.add_turn_effect c d) ∧
    (∀ (os : OptimizedState), os.get_current_turn_effects =
      os.toState.get_current_turn_effects) ∧
    (∀ (os : OptimizedState) a, (os.queue_draw_action a).toState =
      os.toState.queue_draw_action a) ∧
    (∀ (os : OptimizedState) tr, (os.advance_turn tr).map (fun p => p.1.toState) =
      (os.toState.advance_turn tr).map (fun p => p.1)) ∧
    (∀ (os : OptimizedState), os.is_game_over = os.toState.is_game_over) :=
  ⟨opt_new_toState, opt_initialize_toState, opt_maybe_draw_toState,
   opt_remove_toState, opt_discard_toState, opt_reset_toState,
   opt_add_effect_toState, opt_effects_toState, opt_queue_toState,
   opt_advance_toState, opt_is_over_toState⟩

end DeckGym
